import Mathlib

/-!
# Verification of the DWA client identifier codecs and identity-mapped resource graph

Shallow embedding of `dwa_client/guid.py`, `dwa_client/oslc/urn.py`,
`dwa_client/client.py` and `dwa_client/resources.py`.  Strings are embedded as
`List Char`; Python `re.match` against the anchored patterns used by the source
is modelled exactly, including CPython's documented rule that `$` also matches
just before a trailing newline at the end of the string; Python `int()` parsing
is modelled with surrounding-whitespace stripping, an optional sign, an optional
`0x` prefix (base 16) and single underscores between digits (Unicode digits are
not modelled: no ASCII identifier text contains them and they cannot satisfy the
hex validators).
-/

deriving instance DecidableEq for Except

namespace Dwa

abbrev Str := List Char

/-- Character data of a string literal. -/
def str (s : String) : Str := s.data

/-- The characters matched by the regex class `[0-9A-Fa-f]`. -/
def hexChars : Str := str "0123456789abcdefABCDEF"

def isHexDigit (c : Char) : Bool := hexChars.contains c

/-- The characters matched by the regex class `[0-9]` / accepted as decimal digits. -/
def decChars : Str := str "0123456789"

def isDecDigit (c : Char) : Bool := decChars.contains c

/-- ASCII whitespace stripped by Python's `int()` and `str.strip()`. -/
def isPySpace (c : Char) : Bool := [' ', '\t', '\n', '\r', '\x0b', '\x0c'].contains c

/-- Python `str.lower` on one character, for the ASCII range.  (Python also
lowers non-ASCII uppercase letters; no such letter lowers to an ASCII hex digit,
so validation outcomes in the source are unaffected.) -/
def pyLowerChar (c : Char) : Char :=
  if 'A' ≤ c ∧ c ≤ 'Z' then Char.ofNat (c.toNat + 32) else c

/-- Python `str.lower`. -/
def pyLower (s : Str) : Str := s.map pyLowerChar

/-- Python `str.split(sep)` for a one-character separator (no maxsplit):
`"".split(":") = [""]`, `"a:b".split(":") = ["a","b"]`. -/
def splitOnChar (sep : Char) : Str → List Str
  | [] => [[]]
  | c :: cs =>
    if c = sep then [] :: splitOnChar sep cs
    else ((c :: (splitOnChar sep cs).headD []) :: (splitOnChar sep cs).tail)

/-- Drop the longest suffix whose characters satisfy `p`. -/
def stripRight (p : Char → Bool) (s : Str) : Str := (s.reverse.dropWhile p).reverse

/-- Strip characters satisfying `p` from both ends (Python `str.strip(set)`). -/
def stripBoth (p : Char → Bool) (s : Str) : Str := stripRight p (s.dropWhile p)

/-- `s[-n:]` in Python: the last `n` characters (the whole string if shorter). -/
def lastN (n : Nat) (s : Str) : Str := s.drop (s.length - n)

/-- Matching of `t` against the regex `pre[0-9A-Fa-f]{n}` with both anchors,
ignoring the trailing-newline rule for `$`. -/
def hexCore (pre : Str) (n : Nat) (t : Str) : Bool :=
  pre.isPrefixOf t && ((t.drop pre.length).length == n) && (t.drop pre.length).all isHexDigit

/-- `re.match(r"^pre[0-9A-Fa-f]{n}$", s)` as used by the validators.  CPython's
`$` matches at the end of the string or just before a newline at the end, so a
single trailing newline is also accepted. -/
def matchHexAnchored (pre : Str) (n : Nat) (s : Str) : Bool :=
  hexCore pre n s || (s.getLast? == some '\n' && hexCore pre n s.dropLast)

/-! ## Numerals: digit values, canonical representations, Python `int()` -/

def decDigitVal (c : Char) : Nat :=
  match c with
  | '0' => 0 | '1' => 1 | '2' => 2 | '3' => 3 | '4' => 4
  | '5' => 5 | '6' => 6 | '7' => 7 | '8' => 8 | '9' => 9
  | _ => 0

def hexDigitVal (c : Char) : Nat :=
  match c with
  | '0' => 0 | '1' => 1 | '2' => 2 | '3' => 3 | '4' => 4
  | '5' => 5 | '6' => 6 | '7' => 7 | '8' => 8 | '9' => 9
  | 'a' => 10 | 'b' => 11 | 'c' => 12 | 'd' => 13 | 'e' => 14 | 'f' => 15
  | 'A' => 10 | 'B' => 11 | 'C' => 12 | 'D' => 13 | 'E' => 14 | 'F' => 15
  | _ => 0

def decDigitChar (d : Nat) : Char :=
  match d with
  | 0 => '0' | 1 => '1' | 2 => '2' | 3 => '3' | 4 => '4'
  | 5 => '5' | 6 => '6' | 7 => '7' | 8 => '8' | _ => '9'

def hexDigitChar (d : Nat) : Char :=
  match d with
  | 0 => '0' | 1 => '1' | 2 => '2' | 3 => '3' | 4 => '4'
  | 5 => '5' | 6 => '6' | 7 => '7' | 8 => '8' | 9 => '9'
  | 10 => 'a' | 11 => 'b' | 12 => 'c' | 13 => 'd' | 14 => 'e' | _ => 'f'

/-- Big-endian value of a digit string. -/
def decVal (s : Str) : Nat := s.foldl (fun a c => 10 * a + decDigitVal c) 0

/-- Big-endian value of a hex digit string. -/
def hexVal (s : Str) : Nat := s.foldl (fun a c => 16 * a + hexDigitVal c) 0

/-- Little-endian digits of `n` in base `b` (empty for 0), with enough fuel;
structural recursion on the fuel keeps the definition kernel-reducible. -/
def digitsRevAux (dc : Nat → Char) (b : Nat) : Nat → Nat → Str
  | 0, _ => []
  | _ + 1, 0 => []
  | fuel + 1, n + 1 => dc ((n + 1) % b) :: digitsRevAux dc b fuel ((n + 1) / b)

/-- Little-endian decimal digits of `n` (empty for 0). -/
def decDigitsRev (n : Nat) : Str := digitsRevAux decDigitChar 10 n n

/-- Little-endian hex digits of `n` (empty for 0). -/
def hexDigitsRev (n : Nat) : Str := digitsRevAux hexDigitChar 16 n n

/-- Python `str(n)` for a natural number. -/
def natRepr (n : Nat) : Str := if n = 0 then ['0'] else (decDigitsRev n).reverse

/-- Python `str(z)` for an integer. -/
def intRepr (z : Int) : Str :=
  if z < 0 then '-' :: natRepr (-z).toNat else natRepr z.toNat

/-- Lowercase hex form of `n` without padding. -/
def hexRepr (n : Nat) : Str := if n = 0 then ['0'] else (hexDigitsRev n).reverse

/-- Pad `s` on the left with `c` to width `w`. -/
def leftPad (c : Char) (w : Nat) (s : Str) : Str := List.replicate (w - s.length) c ++ s

/-- Python `f"{z:08x}"`: zero-padded to total width 8, the sign included. -/
def pyFormatHex8 (z : Int) : Str :=
  if z < 0 then '-' :: leftPad '0' 7 (hexRepr (-z).toNat) else leftPad '0' 8 (hexRepr z.toNat)

/-- Python `str.strip()`. -/
def pyStrip (s : Str) : Str := stripBoth isPySpace s

/-- Digit run with single underscores between digits (Python numeric literals). -/
def usTail (isD : Char → Bool) : Str → Bool
  | [] => true
  | c :: rest =>
    if c = '_' then ((rest.head?.map isD).getD false) && usTail isD rest
    else isD c && usTail isD rest

def usGood (isD : Char → Bool) : Str → Bool
  | [] => false
  | c :: rest => isD c && usTail isD rest

/-- Value of an underscore-digit run once the underscores are removed. -/
def usValDec (s : Str) : Nat := decVal (s.filter (fun c => !(c == '_')))

def usValHex (s : Str) : Nat := hexVal (s.filter (fun c => !(c == '_')))

def decBody (s : Str) : Option Nat :=
  if usGood isDecDigit s then some (usValDec s) else none

def hexBody (s : Str) : Option Nat :=
  if s.take 2 = str "0x" ∨ s.take 2 = str "0X" then
    if usGood isHexDigit (s.drop 2) then some (usValHex (s.drop 2)) else none
  else if usGood isHexDigit s then some (usValHex s) else none

/-- Shared sign handling of Python `int()` after stripping. -/
def intBody (body : Str → Option Nat) : Str → Option Int
  | [] => none
  | c :: r =>
    if c = '-' then (body r).map (fun n => -(Int.ofNat n))
    else if c = '+' then (body r).map (fun n => Int.ofNat n)
    else (body (c :: r)).map (fun n => Int.ofNat n)

/-- Python `int(s)`; `none` models the `ValueError`. -/
def pyIntDec (s : Str) : Option Int := intBody decBody (pyStrip s)

/-- Python `int(s, 16)`; `none` models the `ValueError`. -/
def pyIntHex (s : Str) : Option Int := intBody hexBody (pyStrip s)

/-! ## Errors

One constructor per distinct `raise` site reached by the embedded code; the
constructor identifies which field or format the Python error message names. -/

inductive Err where
  | invalidDatabaseId
  | invalidTypeCode
  | invalidModuleSegment
  | invalidObjectSegment
  | invalidGuidFormat
  | invalidBaselineKeyFormat
  | intLiteral
  | unpackMismatch
  | unknownTypeCode
  | invalidDwaUrn
  | invalidObjectUrn
  | invalidKeyForKind
  | objectUrnRequiresFields
  | invalidObjectNumber
  | invalidModuleKeyForObjectUrn
  | formatNone
  | keyErrorGuid
  | wrongKind
deriving DecidableEq

/-- `DWAResourceType` from `dwa_client/guid.py`. -/
inductive DWAResourceType where
  | MODULE
  | OBJECT
  | FOLDER
  | PROJECT
deriving DecidableEq

/-- The enum's `.value` string (a single letter). -/
def DWAResourceType.letter : DWAResourceType → Char
  | .MODULE => 'M'
  | .OBJECT => 'O'
  | .FOLDER => 'F'
  | .PROJECT => 'P'

/-- `DWAResourceType(kind)` lookup by value, for `kind ∈ "PFMO"`. -/
def kindOfLetter (c : Char) : Option DWAResourceType :=
  if c = 'M' then some .MODULE
  else if c = 'O' then some .OBJECT
  else if c = 'F' then some .FOLDER
  else if c = 'P' then some .PROJECT
  else none

/-! ## BaselineKey (`dwa_client/guid.py`) -/

structure BaselineKey where
  is_legacy : Bool
  baseline_id : Str
  epoch : Option Int
deriving DecidableEq

/-- `BaselineKey.from_string`.  A text starting `ff` is legacy with the rest as
id; a text starting `{` is stripped of braces at both ends, split on `,` into
exactly two parts, the second parsed by `int()`; anything else is an error. -/
def BaselineKey.from_string (value : Str) : Except Err BaselineKey :=
  if (str "ff").isPrefixOf value then
    .ok ⟨true, value.drop 2, none⟩
  else if value.head? = some '{' then
    match splitOnChar ',' (stripBoth (fun c => c = '{' || c = '}') value) with
    | [bid, ep] =>
      match pyIntDec ep with
      | some e => .ok ⟨false, bid, some e⟩
      | none => .error .intLiteral
    | _ => .error .unpackMismatch
  else .error .invalidBaselineKeyFormat

/-- `BaselineKey.__str__`: `ff<id>` or `\x7b<id>,<epoch>\x7d`. -/
def BaselineKey.toText (b : BaselineKey) : Str :=
  if b.is_legacy then 'f' :: 'f' :: b.baseline_id
  else
    '{' :: b.baseline_id ++ ',' ::
      (match b.epoch with
       | some e => intRepr e
       | none => str "None") ++ ['}']

/-! ## GUID (`dwa_client/guid.py`) -/

structure GUID where
  dbid : Str
  typecode : Str
  parent_key : Str
  object_key : Str
  baseline_key : Option BaselineKey
deriving DecidableEq

/-- `GUID.__init__`: validate the four positional fields against their anchored
fixed-width hex patterns (failing with the error naming the field), then store
them lower-cased. -/
def GUID.init (dbid typecode parent_key object_key : Str) (baseline_key : Option BaselineKey) :
    Except Err GUID :=
  if ¬ matchHexAnchored [] 16 dbid then .error .invalidDatabaseId
  else if ¬ matchHexAnchored [] 2 typecode then .error .invalidTypeCode
  else if ¬ matchHexAnchored [] 10 parent_key then .error .invalidModuleSegment
  else if ¬ matchHexAnchored (str "28") 8 object_key then .error .invalidObjectSegment
  else .ok ⟨pyLower dbid, pyLower typecode, pyLower parent_key, pyLower object_key, baseline_key⟩

/-- `GUID.from_string`: require the literal `AB:` head, split on `:` into 5 or 6
parts, parse the optional 6th as a baseline key, then construct (validating). -/
def GUID.from_string (value : Str) : Except Err GUID :=
  if (str "AB:").isPrefixOf value then
    match splitOnChar ':' value with
    | [_, d, t, p, o] => GUID.init d t p o none
    | [_, d, t, p, o, bk] =>
      match BaselineKey.from_string bk with
      | .error e => .error e
      | .ok b => GUID.init d t p o (some b)
    | _ => .error .invalidGuidFormat
  else .error .invalidGuidFormat

/-- `GUID.get_object_id`: `int(object_key[2:], 16)`. -/
def GUID.get_object_id (g : GUID) : Option Int := pyIntHex (g.object_key.drop 2)

/-- `_folder_or_project` composed into `GUID.get_resource_type`: type code `21`
is module, `23` is object, `1f` is project or folder by comparing
`int(parent_key[-8:], 16)` against `0x1000`; anything else is the
unknown-type-code error. -/
def GUID.get_resource_type (g : GUID) : Except Err DWAResourceType :=
  if g.typecode = str "21" then .ok .MODULE
  else if g.typecode = str "23" then .ok .OBJECT
  else if g.typecode = str "1f" then
    match pyIntHex (lastN 8 g.parent_key) with
    | some v => .ok (if 4096 ≤ v then .PROJECT else .FOLDER)
    | none => .error .intLiteral
  else .error .unknownTypeCode

/-- `GUID.__str__` (no baseline):
`AB:<dbid>:<typecode>:<parent_key>:<object_key>` with the baseline text
appended after a further `:` when present. -/
def GUID.toText (g : GUID) : Str :=
  str "AB:" ++ g.dbid ++ ':' :: g.typecode ++ ':' :: g.parent_key ++ ':' :: g.object_key ++
    (match g.baseline_key with
     | some b => ':' :: b.toText
     | none => [])

/-- Stored-field well-formedness: exactly the facts guaranteed by `GUID.init`
about the value it returns. -/
def GUID.Wf (g : GUID) : Bool :=
  matchHexAnchored [] 16 g.dbid && matchHexAnchored [] 2 g.typecode &&
  matchHexAnchored [] 10 g.parent_key && matchHexAnchored (str "28") 8 g.object_key &&
  pyLower g.dbid == g.dbid && pyLower g.typecode == g.typecode &&
  pyLower g.parent_key == g.parent_key && pyLower g.object_key == g.object_key

/-! ## URN (`dwa_client/oslc/urn.py`) -/

structure URN where
  dbid : Str
  resource_type : DWAResourceType
  key : Str
  object_no : Option Int
  module_key : Option Str
deriving DecidableEq

/-- `URN.__init__`.  The database id is validated for every kind; an object URN
additionally requires a non-negative object number and an 8-hex module key,
while any other kind validates `key` instead.  `key` is stored lower-cased
unconditionally (unvalidated for objects), and a falsy (empty) module key is
stored as `None`. -/
def URN.init (dbid : Str) (resource_type : DWAResourceType) (key : Str)
    (object_no : Option Int) (module_key : Option Str) : Except Err URN :=
  if ¬ matchHexAnchored [] 16 dbid then .error .invalidDatabaseId
  else if resource_type = .OBJECT then
    match object_no, module_key with
    | some n, some mkey =>
      if n < 0 then .error .invalidObjectNumber
      else if ¬ matchHexAnchored [] 8 mkey then .error .invalidModuleKeyForObjectUrn
      else .ok ⟨pyLower dbid, resource_type, pyLower key, some n,
                if mkey.isEmpty then none else some (pyLower mkey)⟩
    | _, _ => .error .objectUrnRequiresFields
  else
    if ¬ matchHexAnchored [] 8 key then .error .invalidKeyForKind
    else .ok ⟨pyLower dbid, resource_type, pyLower key, object_no,
              match module_key with
              | some [] => none
              | some mkey => some (pyLower mkey)
              | none => none⟩

/-- Groups after the scheme: 16 hex digits, `-`, one of `PFMO`, `-`, then a
non-empty newline-free remainder. -/
def urnGroups (s : Str) : Option (Str × Char × Str) :=
  let dbid := s.take 16
  if dbid.length = 16 ∧ dbid.all isHexDigit then
    match s.drop 16 with
    | '-' :: k :: '-' :: rest =>
      if (k = 'P' ∨ k = 'F' ∨ k = 'M' ∨ k = 'O') ∧ rest ≠ [] ∧ rest.all (fun c => !(c == '\n')) then
        some (dbid, k, rest)
      else none
    | _ => none
  else none

/-- Left-to-right match of the fixed parts of `_DWA_URN_RE` against a text that
contains no newline, yielding the groups `dbid`, `kind`, `rest`. -/
def urnCoreMatch (s : Str) : Option (Str × Char × Str) :=
  if (str "urn:rational::1-").isPrefixOf s then
    urnGroups (s.drop 16)
  else if (str "urn:telelogic::1-").isPrefixOf s then
    urnGroups (s.drop 17)
  else none

/-- `_DWA_URN_RE.match(value)`: the pattern is anchored at both ends but `.`
never matches a newline and `$` also matches just before a trailing newline, so
a text with one trailing newline matches through its core. -/
def urnReMatch (value : Str) : Option (Str × Char × Str) :=
  if value.getLast? = some '\n' then urnCoreMatch value.dropLast else urnCoreMatch value

/-- `URN.from_string`: regex match, then for kind `O` split the rest on `-` into
exactly an `int()` object number and a module key (lowered, doubling as `key`);
for the other kinds the rest must be exactly 8 hex digits. -/
def URN.from_string (value : Str) : Except Err URN :=
  match urnReMatch value with
  | none => .error .invalidDwaUrn
  | some (dbid0, kind, rest) =>
    let dbid := pyLower dbid0
    if kind = 'O' then
      match splitOnChar '-' rest with
      | [p0, p1] =>
        match pyIntDec p0 with
        | none => .error .intLiteral
        | some n => URN.init dbid .OBJECT (pyLower p1) (some n) (some (pyLower p1))
      | _ => .error .invalidObjectUrn
    else
      if rest.length = 8 ∧ rest.all isHexDigit then
        match kindOfLetter kind with
        | some rt => URN.init dbid rt rest none none
        | none => .error .invalidDwaUrn
      else .error .invalidKeyForKind

/-- `URN.from_guid`: derive the semantic type, then rebuild the URN fields from
the GUID's stored segments (`parent_key[-8:]` as key or module key, and the
object id for objects). -/
def URN.from_guid (g : GUID) : Except Err URN :=
  match g.get_resource_type with
  | .error e => .error e
  | .ok rt =>
    if rt = .OBJECT then
      match g.get_object_id with
      | none => .error .intLiteral
      | some n =>
        let mkey := lastN 8 g.parent_key
        URN.init g.dbid .OBJECT mkey (some n) (some mkey)
    else
      URN.init g.dbid rt (lastN 8 g.parent_key) none none

/-- `GUID.from_urn`: conversion table keyed by the URN's resource kind. -/
def GUID.from_urn (u : URN) : Except Err GUID :=
  match u.resource_type with
  | .OBJECT =>
    match u.module_key, u.object_no with
    | some mkey, some n =>
      GUID.init u.dbid (str "23") (str "21" ++ mkey) (str "28" ++ pyFormatHex8 n) none
    | _, _ => .error .formatNone
  | .MODULE => GUID.init u.dbid (str "21") (str "21" ++ u.key) (str "28ffffffff") none
  | .PROJECT => GUID.init u.dbid (str "1f") (str "1f" ++ u.key) (str "28ffffffff") none
  | .FOLDER => GUID.init u.dbid (str "1f") (str "1f" ++ u.key) (str "28ffffffff") none

/-- `URN.__str__`: `urn:rational::1-<dbid>-<letter>-<rest>` where `rest` is
`<object_no>-<module_key>` for objects and `key` otherwise (Python prints
`None` for a missing optional). -/
def URN.toText (u : URN) : Str :=
  str "urn:rational::1-" ++ u.dbid ++ '-' :: u.resource_type.letter :: '-' ::
    (match u.resource_type with
     | .OBJECT =>
       (match u.object_no with
        | some n => intRepr n
        | none => str "None") ++ '-' ::
       (match u.module_key with
        | some mkey => mkey
        | none => str "None")
     | _ => u.key)

/-- Stored-field well-formedness: exactly the facts guaranteed by `URN.init`
about the value it returns. -/
def URN.Wf (u : URN) : Bool :=
  matchHexAnchored [] 16 u.dbid && pyLower u.dbid == u.dbid && pyLower u.key == u.key &&
  (match u.resource_type with
   | .OBJECT =>
     match u.object_no, u.module_key with
     | some n, some mkey =>
       decide (0 ≤ n) && matchHexAnchored [] 8 mkey && pyLower mkey == mkey
     | _, _ => false
   | _ => matchHexAnchored [] 8 u.key)

/-- Modelled from the spec: `module_urn_from_object_urn` is imported by
`src/tests/test_urn.py` from `dwa_client.oslc.urn` but is not present in the
`src/` snapshot.  Spec §4.3: given an object-kind public identifier, return the
module-kind identifier sharing the same `database_id` and using `module_key` as
the module's `key`; fail with `WrongKindError` for a non-object identifier. -/
def module_urn_from_object_urn (u : URN) : Except Err URN :=
  if u.resource_type = .OBJECT then
    match u.module_key with
    | some mkey => URN.init u.dbid .MODULE mkey none none
    | none => .error .wrongKind
  else .error .wrongKind

/-- Follows the claim's words (C6): the texts that start with the literal `AB:`
and split on `:` into 4 or 5 further components, the 5th (if present) being
baseline-key text accepted by the baseline codec, and each of the 4 positional
components consisting exactly of its fixed-width run of (case-insensitive) hex
digits from the data model: 16 for the database id, 2 for the type code, 10
for the parent key, and `28` followed by 8 for the object key. -/
def guidGrammar (s : Str) : Bool :=
  (str "AB:").isPrefixOf s &&
  (match splitOnChar ':' s with
   | [_, d, t, p, o] =>
     hexCore [] 16 d && hexCore [] 2 t &&
     hexCore [] 10 p && hexCore (str "28") 8 o
   | [_, d, t, p, o, bk] =>
     (BaselineKey.from_string bk).isOk &&
     hexCore [] 16 d && hexCore [] 2 t &&
     hexCore [] 10 p && hexCore (str "28") 8 o
   | _ => false)

/-- The grammar `GUID.from_string` actually decides: the claim's shape, but
with every fixed-width component widened by the anchored patterns' CPython
quirk (`$` also matches just before one trailing newline), as
`matchHexAnchored` models from the source. -/
def guidGrammarRe (s : Str) : Bool :=
  (str "AB:").isPrefixOf s &&
  (match splitOnChar ':' s with
   | [_, d, t, p, o] =>
     matchHexAnchored [] 16 d && matchHexAnchored [] 2 t &&
     matchHexAnchored [] 10 p && matchHexAnchored (str "28") 8 o
   | [_, d, t, p, o, bk] =>
     (BaselineKey.from_string bk).isOk &&
     matchHexAnchored [] 16 d && matchHexAnchored [] 2 t &&
     matchHexAnchored [] 10 p && matchHexAnchored (str "28") 8 o
   | _ => false)

/-! ## Identity map and resource graph (`dwa_client/client.py`, `dwa_client/resources.py`)

A server child record is a string-keyed dictionary; nodes live in an
append-only arena (`store`), so that two references are to the same Python
object exactly when they are the same arena index; `identity` is the client's
`_identity` dict from `GUID` values to nodes. -/

abbrev Record := List (Str × Str)

/-- `dict[k]` lookup (keys are unique in a Python dict, duplicates in the
embedded association list resolve to the first entry). -/
def dictGet (d : Record) (k : Str) : Option Str :=
  (d.find? (fun p => p.1 == k)).map (fun p => p.2)

/-- `dict[k] = v`: replace in place if the key exists, else append (insertion
order preserved, as in CPython). -/
def dictSet (d : Record) (k v : Str) : Record :=
  if d.any (fun p => p.1 == k) then d.map (fun p => if p.1 == k then (k, v) else p)
  else d ++ [(k, v)]

/-- `dict.update(other)`: assign `other`'s entries left to right. -/
def dictUpdate (d other : Record) : Record :=
  other.foldl (fun acc p => dictSet acc p.1 p.2) d

/-- The concrete classes a node can be instantiated as by the graph
operations. -/
inductive NodeKind where
  | project
  | document
  | folder
deriving DecidableEq

/-- One `RemoteResource`: its `guid` text (the `Guid` str wrapper), `_meta`,
`_loaded`, `_children_cache` (arena indices), and its Python class. -/
structure Node where
  guid_text : Str
  meta : Record
  loaded : Bool
  children_cache : Option (List Nat)
  kind : NodeKind
deriving DecidableEq

/-- `RemoteResource.__init__` via a subclass constructor taking a node record:
`_meta` is the record and `_loaded = bool(meta)`. -/
def mkRemoteResource (kind : NodeKind) (guid_text : Str) (meta : Record) : Node :=
  ⟨guid_text, meta, !meta.isEmpty, none, kind⟩

structure ClientState where
  store : List Node
  identity : List (GUID × Nat)
deriving DecidableEq

/-- `self._identity[guid]` lookup by structural GUID equality. -/
def idLookup (m : List (GUID × Nat)) (g : GUID) : Option Nat :=
  (m.find? (fun p => decide (p.1 = g))).map (fun p => p.2)

/-- Every identity-map entry points into the arena. -/
def ClientState.Wf (s : ClientState) : Prop :=
  ∀ p ∈ s.identity, p.2 < s.store.length

/-- The stub record `\x7b"guid": str(guid), "mainAttribute": str(guid)\x7d`
built by `Folder._from_stub` / `Document._from_stub`. -/
def stubMeta (g : GUID) : Record :=
  [(str "guid", g.toText), (str "mainAttribute", g.toText)]

/-- `DWAClient.get_folder`: return the mapped node if present, else insert a
`Folder` stub built from the identifier text and return it. -/
def DWAClient.get_folder (g : GUID) (s : ClientState) : Nat × ClientState :=
  match idLookup s.identity g with
  | some i => (i, s)
  | none =>
    (s.store.length,
     ⟨s.store ++ [mkRemoteResource .folder g.toText (stubMeta g)],
      s.identity ++ [(g, s.store.length)]⟩)

/-- `DWAClient.get_document`: same as `get_folder` with a `Document` stub. -/
def DWAClient.get_document (g : GUID) (s : ClientState) : Nat × ClientState :=
  match idLookup s.identity g with
  | some i => (i, s)
  | none =>
    (s.store.length,
     ⟨s.store ++ [mkRemoteResource .document g.toText (stubMeta g)],
      s.identity ++ [(g, s.store.length)]⟩)

/-- `GUID.from_string(node["guid"])` with `KeyError` on a missing key. -/
def parseRecordGuid (r : Record) : Except Err GUID :=
  match dictGet r (str "guid") with
  | none => .error .keyErrorGuid
  | some t => GUID.from_string t

/-- `node.get("moduleType")` dispatch used when constructing a new node. -/
def moduleTypeKind (r : Record) : NodeKind :=
  match dictGet r (str "moduleType") with
  | some t => if t = str "PROJECT" then .project else if t = str "DOCUMENT" then .document else .folder
  | none => .folder

/-- `DWAClient._instantiate_from_node`: parse the record's identifier; an
existing node is hydrated in place (`_meta.update(node)`, `_loaded = True`) and
returned, otherwise a new node of the discriminated kind is built from the
record, inserted and returned.  The error component models the raised
exception; the state component is the client state at that point. -/
def DWAClient.instantiate_from_node (r : Record) (s : ClientState) :
    Except Err Nat × ClientState :=
  match dictGet r (str "guid") with
  | none => (.error .keyErrorGuid, s)
  | some t =>
    match GUID.from_string t with
    | .error e => (.error e, s)
    | .ok g =>
      match idLookup s.identity g with
      | some i =>
        match s.store[i]? with
        | some nd =>
          (.ok i, ⟨s.store.set i { nd with meta := dictUpdate nd.meta r, loaded := true },
                   s.identity⟩)
        | none => (.ok i, s)
      | none =>
        (.ok s.store.length,
         ⟨s.store ++ [mkRemoteResource (moduleTypeKind r) t r],
          s.identity ++ [(g, s.store.length)]⟩)

/-- Instantiate a batch of child records in order (the list comprehension in
`Folder.get_children`); the first exception aborts the batch, keeping the
identity-map mutations already made. -/
def instantiateAll (records : List Record) (s : ClientState) :
    Except Err (List Nat) × ClientState :=
  match records with
  | [] => (.ok [], s)
  | r :: rest =>
    match DWAClient.instantiate_from_node r s with
    | (.error e, s1) => (.error e, s1)
    | (.ok i, s1) =>
      match instantiateAll rest s1 with
      | (.error e, s2) => (.error e, s2)
      | (.ok is, s2) => (.ok (i :: is), s2)

/-- The node's `_children_cache`. -/
def cacheAt (s : ClientState) (i : Nat) : Option (List Nat) :=
  (s.store[i]?).bind Node.children_cache

/-- The fetch-and-install path of `Folder.get_children`: build the full child
list through the identity map (the first bad record aborts, before any
assignment to the cache), then install it as the node's `_children_cache`. -/
def fetchChildren (records : List Record) (i : Nat) (s : ClientState) :
    Except Err (List Nat) × ClientState :=
  match instantiateAll records s with
  | (.error e, s1) => (.error e, s1)
  | (.ok ids, s1) =>
    match s1.store[i]? with
    | some nd => (.ok ids, ⟨s1.store.set i { nd with children_cache := some ids }, s1.identity⟩)
    | none => (.ok ids, s1)

/-- `Folder.get_children(refresh)` on the node at `i`, with `records` the
child records returned by the external fetch: return the cache when present
and no refresh is requested; otherwise fetch and install. -/
def Folder.get_children (records : List Record) (i : Nat) (refresh : Bool)
    (s : ClientState) : Except Err (List Nat) × ClientState :=
  match cacheAt s i with
  | some l => if refresh then fetchChildren records i s else (.ok l, s)
  | none => fetchChildren records i s

/-- `self._meta` lookup through a node reference. -/
def metaAt (s : ClientState) (i : Nat) (k : Str) : Option Str :=
  (s.store[i]?).bind (fun nd => dictGet nd.meta k)

/-! ## Character-class facts -/

theorem mem_of_isHexDigit {c : Char} (h : isHexDigit c = true) : c ∈ hexChars := by
  simpa [isHexDigit, List.contains] using h

theorem isHexDigit_of_mem {c : Char} (h : c ∈ hexChars) : isHexDigit c = true := by
  simpa [isHexDigit, List.contains] using h

theorem hexChar_facts : ∀ c ∈ hexChars,
    isHexDigit (pyLowerChar c) = true ∧ pyLowerChar (pyLowerChar c) = pyLowerChar c ∧
    c ≠ ':' ∧ c ≠ '\n' ∧ c ≠ '-' ∧ c ≠ ',' ∧ c ≠ '{' ∧ c ≠ '}' ∧ c ≠ '_' ∧
    c ≠ 'x' ∧ c ≠ 'X' ∧ c ≠ '+' ∧ isPySpace c = false ∧ hexDigitVal c < 16 := by
  decide

theorem hex_ne_colon {c : Char} (h : isHexDigit c = true) : c ≠ ':' :=
  (hexChar_facts c (mem_of_isHexDigit h)).2.2.1

theorem hex_ne_nl {c : Char} (h : isHexDigit c = true) : c ≠ '\n' :=
  (hexChar_facts c (mem_of_isHexDigit h)).2.2.2.1

theorem hex_ne_dash {c : Char} (h : isHexDigit c = true) : c ≠ '-' :=
  (hexChar_facts c (mem_of_isHexDigit h)).2.2.2.2.1

theorem hex_not_space {c : Char} (h : isHexDigit c = true) : isPySpace c = false :=
  (hexChar_facts c (mem_of_isHexDigit h)).2.2.2.2.2.2.2.2.2.2.2.2.1

theorem hex_lower_hex {c : Char} (h : isHexDigit c = true) :
    isHexDigit (pyLowerChar c) = true :=
  (hexChar_facts c (mem_of_isHexDigit h)).1

theorem hex_lower_idem {c : Char} (h : isHexDigit c = true) :
    pyLowerChar (pyLowerChar c) = pyLowerChar c :=
  (hexChar_facts c (mem_of_isHexDigit h)).2.1

/-! ## Numeral facts -/

theorem foldl_base_shift (b : Nat) (dv : Char → Nat) (s : Str) :
    ∀ a : Nat, s.foldl (fun x c => b * x + dv c) a
      = a * b ^ s.length + s.foldl (fun x c => b * x + dv c) 0 := by
  induction s with
  | nil => intro a; simp
  | cons c t ih =>
    intro a
    simp only [List.foldl_cons, List.length_cons]
    rw [ih (b * a + dv c), ih (b * 0 + dv c)]
    ring

theorem decVal_append (s t : Str) :
    decVal (s ++ t) = decVal s * 10 ^ t.length + decVal t := by
  simp only [decVal, List.foldl_append]
  rw [foldl_base_shift]

theorem hexVal_append (s t : Str) :
    hexVal (s ++ t) = hexVal s * 16 ^ t.length + hexVal t := by
  simp only [hexVal, List.foldl_append]
  rw [foldl_base_shift]

theorem hexVal_lt {s : Str} (h : s.all isHexDigit = true) : hexVal s < 16 ^ s.length := by
  induction s with
  | nil => simp [hexVal]
  | cons c t ih =>
    simp only [List.all_cons, Bool.and_eq_true] at h
    have hc : hexDigitVal c < 16 :=
      (hexChar_facts c (mem_of_isHexDigit h.1)).2.2.2.2.2.2.2.2.2.2.2.2.2
    have := ih h.2
    have hstep : hexVal (c :: t) = hexDigitVal c * 16 ^ t.length + hexVal t := by
      have : (c :: t) = [c] ++ t := rfl
      rw [this, hexVal_append]
      have : hexVal [c] = hexDigitVal c := by simp [hexVal]
      rw [this]
    rw [hstep]
    calc hexDigitVal c * 16 ^ t.length + hexVal t
        < hexDigitVal c * 16 ^ t.length + 16 ^ t.length := by omega
      _ = (hexDigitVal c + 1) * 16 ^ t.length := by ring
      _ ≤ 16 * 16 ^ t.length := by
          have h16 : 0 < 16 ^ t.length := Nat.pos_pow_of_pos _ (by omega)
          exact Nat.mul_le_mul_right _ (by omega)
      _ = 16 ^ (t.length + 1) := by ring
      _ = 16 ^ (c :: t).length := by simp

theorem digitsRevAux_val (dc : Nat → Char) (dv : Char → Nat) (b : Nat) (hb : 2 ≤ b)
    (hdc : ∀ d, d < b → dv (dc d) = d) :
    ∀ fuel n, n ≤ fuel →
      ((digitsRevAux dc b fuel n).reverse).foldl (fun x c => b * x + dv c) 0 = n := by
  intro fuel
  induction fuel with
  | zero =>
    intro n hn
    have : n = 0 := by omega
    subst this
    rfl
  | succ f ih =>
    intro n hn
    match n with
    | 0 => rfl
    | m + 1 =>
      have hq : (m + 1) / b ≤ f := by
        have h2 : (m + 1) / b < m + 1 := Nat.div_lt_self (by omega) (by omega : 1 < b)
        omega
      have ihq := ih ((m + 1) / b) hq
      simp only [digitsRevAux, List.reverse_cons, List.foldl_append, List.foldl_cons,
        List.foldl_nil]
      rw [ihq, hdc _ (Nat.mod_lt _ (by omega))]
      exact Nat.div_add_mod (m + 1) b

theorem digitsRevAux_len (dc : Nat → Char) (b : Nat) (hb : 2 ≤ b) :
    ∀ fuel n k, n ≤ fuel → n < b ^ k → (digitsRevAux dc b fuel n).length ≤ k := by
  intro fuel
  induction fuel with
  | zero =>
    intro n k hn _
    have : n = 0 := by omega
    subst this
    simp [digitsRevAux]
  | succ f ih =>
    intro n k hn hk
    match n with
    | 0 => simp [digitsRevAux]
    | m + 1 =>
      match k with
      | 0 =>
        rw [pow_zero] at hk
        omega
      | j + 1 =>
        have hq : (m + 1) / b ≤ f := by
          have h2 : (m + 1) / b < m + 1 := Nat.div_lt_self (by omega) (by omega : 1 < b)
          omega
        have hqk : (m + 1) / b < b ^ j := by
          rw [Nat.div_lt_iff_lt_mul (by omega : 0 < b)]
          calc m + 1 < b ^ (j + 1) := hk
            _ = b ^ j * b := by ring
        have := ih ((m + 1) / b) j hq hqk
        simp only [digitsRevAux, List.length_cons]
        omega

theorem digitsRevAux_mem (dc : Nat → Char) (b : Nat) (hb : 2 ≤ b) :
    ∀ fuel n c, c ∈ digitsRevAux dc b fuel n → ∃ d, d < b ∧ c = dc d := by
  intro fuel
  induction fuel with
  | zero => intro n c h; simp [digitsRevAux] at h
  | succ f ih =>
    intro n c h
    match n with
    | 0 => simp [digitsRevAux] at h
    | m + 1 =>
      simp only [digitsRevAux, List.mem_cons] at h
      rcases h with h | h
      · exact ⟨(m + 1) % b, Nat.mod_lt _ (by omega), h⟩
      · exact ih _ c h

theorem decDigitVal_char {d : Nat} (h : d < 10) : decDigitVal (decDigitChar d) = d := by
  interval_cases d <;> rfl

theorem hexDigitVal_char {d : Nat} (h : d < 16) : hexDigitVal (hexDigitChar d) = d := by
  interval_cases d <;> rfl

theorem decDigitChar_digit (d : Nat) : isDecDigit (decDigitChar d) = true := by
  match d with
  | 0 | 1 | 2 | 3 | 4 | 5 | 6 | 7 | 8 => decide
  | n + 9 => rfl

theorem hexDigitChar_hex (d : Nat) : isHexDigit (hexDigitChar d) = true := by
  match d with
  | 0 | 1 | 2 | 3 | 4 | 5 | 6 | 7 | 8 | 9 | 10 | 11 | 12 | 13 | 14 => decide
  | n + 15 => rfl

theorem hexDigitChar_lower (d : Nat) : pyLowerChar (hexDigitChar d) = hexDigitChar d := by
  match d with
  | 0 | 1 | 2 | 3 | 4 | 5 | 6 | 7 | 8 | 9 | 10 | 11 | 12 | 13 | 14 => decide
  | n + 15 => rfl

theorem decChar_facts : ∀ c ∈ decChars,
    c ≠ '_' ∧ c ≠ '-' ∧ c ≠ '+' ∧ c ≠ ',' ∧ c ≠ ':' ∧ c ≠ '{' ∧ c ≠ '}' ∧
    isPySpace c = false ∧ isHexDigit c = true := by
  decide

theorem mem_of_isDecDigit {c : Char} (h : isDecDigit c = true) : c ∈ decChars := by
  simpa [isDecDigit, List.contains] using h

/-- `natRepr n` is a non-empty string of decimal digits with value `n`. -/
theorem natRepr_spec (n : Nat) :
    decVal (natRepr n) = n ∧ natRepr n ≠ [] ∧ ∀ c ∈ natRepr n, isDecDigit c = true := by
  by_cases h : n = 0
  · subst h
    exact ⟨rfl, by decide, by decide⟩
  · have hrepr : natRepr n = (decDigitsRev n).reverse := if_neg h
    obtain ⟨m, rfl⟩ : ∃ m, n = m + 1 := ⟨n - 1, by omega⟩
    refine ⟨?_, ?_, ?_⟩
    · rw [hrepr]
      exact digitsRevAux_val decDigitChar decDigitVal 10 (by omega)
        (fun d hd => decDigitVal_char hd) (m + 1) (m + 1) le_rfl
    · rw [hrepr]
      intro hnil
      have hnil2 : decDigitsRev (m + 1) = [] := by
        simpa using congrArg List.reverse hnil
      simp [decDigitsRev, digitsRevAux] at hnil2
    · rw [hrepr]
      intro c hc
      rw [List.mem_reverse] at hc
      obtain ⟨d, _, rfl⟩ := digitsRevAux_mem decDigitChar 10 (by omega) (m + 1) (m + 1) c hc
      exact decDigitChar_digit d

/-- `hexRepr n` is a non-empty string of lowercase hex digits with value `n`,
of length at most `k` whenever `n < 16 ^ k` (`k ≥ 1`). -/
theorem hexRepr_spec (n : Nat) :
    hexVal (hexRepr n) = n ∧ hexRepr n ≠ [] ∧
    (∀ c ∈ hexRepr n, isHexDigit c = true ∧ pyLowerChar c = c) ∧
    ∀ k, 1 ≤ k → n < 16 ^ k → (hexRepr n).length ≤ k := by
  by_cases h : n = 0
  · subst h
    refine ⟨rfl, by decide, by decide, ?_⟩
    intro k hk _
    have : hexRepr 0 = ['0'] := rfl
    rw [this]
    simpa using hk
  · have hrepr : hexRepr n = (hexDigitsRev n).reverse := if_neg h
    obtain ⟨m, rfl⟩ : ∃ m, n = m + 1 := ⟨n - 1, by omega⟩
    refine ⟨?_, ?_, ?_, ?_⟩
    · rw [hrepr]
      exact digitsRevAux_val hexDigitChar hexDigitVal 16 (by omega)
        (fun d hd => hexDigitVal_char hd) (m + 1) (m + 1) le_rfl
    · rw [hrepr]
      intro hnil
      have hnil2 : hexDigitsRev (m + 1) = [] := by
        simpa using congrArg List.reverse hnil
      simp [hexDigitsRev, digitsRevAux] at hnil2
    · rw [hrepr]
      intro c hc
      rw [List.mem_reverse] at hc
      obtain ⟨d, _, rfl⟩ := digitsRevAux_mem hexDigitChar 16 (by omega) (m + 1) (m + 1) c hc
      exact ⟨hexDigitChar_hex d, hexDigitChar_lower d⟩
    · intro k _ hkn
      rw [hrepr]
      simpa [hexDigitsRev] using
        digitsRevAux_len hexDigitChar 16 (by omega) (m + 1) (m + 1) k le_rfl hkn

/-! ## `pyStrip` and `int()` on canonical inputs -/

theorem usTail_cons (isD : Char → Bool) (c : Char) (rest : Str) :
    usTail isD (c :: rest) =
      if c = '_' then ((rest.head?.map isD).getD false) && usTail isD rest
      else isD c && usTail isD rest := rfl

theorem intBody_cons (body : Str → Option Nat) (c : Char) (r : Str) :
    intBody body (c :: r) =
      if c = '-' then (body r).map (fun n => -(Int.ofNat n))
      else if c = '+' then (body r).map (fun n => Int.ofNat n)
      else (body (c :: r)).map (fun n => Int.ofNat n) := rfl

theorem splitOnChar_cons (sep c : Char) (cs : Str) :
    splitOnChar sep (c :: cs) =
      if c = sep then [] :: splitOnChar sep cs
      else ((c :: (splitOnChar sep cs).headD []) :: (splitOnChar sep cs).tail) := rfl

theorem map_eq_self_mem {f : Char → Char} {s : Str} (h : s.map f = s) :
    ∀ c ∈ s, f c = c := by
  induction s with
  | nil => intro c hc; simp at hc
  | cons a t ih =>
    simp only [List.map_cons, List.cons.injEq] at h
    intro c hc
    rcases List.mem_cons.mp hc with rfl | hc
    · exact h.1
    · exact ih h.2 c hc

theorem pyLower_fix {s : Str} (h : ∀ c ∈ s, pyLowerChar c = c) : pyLower s = s := by
  induction s with
  | nil => rfl
  | cons a t ih =>
    simp only [pyLower, List.map_cons]
    rw [h a (by simp), show List.map pyLowerChar t = t from
      ih (fun c hc => h c (List.mem_cons_of_mem a hc))]

theorem dropWhile_no {p : Char → Bool} {s : Str} (h : ∀ c ∈ s, p c = false) :
    s.dropWhile p = s := by
  cases s with
  | nil => rfl
  | cons c t => simp [List.dropWhile_cons, h c (by simp)]

theorem stripRight_no {p : Char → Bool} {s : Str} (h : ∀ c ∈ s, p c = false) :
    stripRight p s = s := by
  unfold stripRight
  rw [dropWhile_no (fun c hc => h c (List.mem_reverse.mp hc))]
  exact List.reverse_reverse s

theorem pyStrip_no {s : Str} (h : ∀ c ∈ s, isPySpace c = false) : pyStrip s = s := by
  unfold pyStrip stripBoth
  rw [dropWhile_no h, stripRight_no h]

theorem pyStrip_trailing_nl {s : Str} (hne : s ≠ [])
    (h : ∀ c ∈ s, isPySpace c = false) : pyStrip (s ++ ['\n']) = s := by
  obtain ⟨a, t, rfl⟩ : ∃ a t, s = a :: t := by
    cases s with
    | nil => exact absurd rfl hne
    | cons a t => exact ⟨a, t, rfl⟩
  have hmem : ∀ e ∈ (t.reverse ++ [a] : Str), isPySpace e = false := by
    intro e he
    rcases List.mem_append.mp he with he | he
    · exact h e (List.mem_cons_of_mem a (List.mem_reverse.mp he))
    · simp only [List.mem_singleton] at he
      subst he
      exact h e (by simp)
  unfold pyStrip stripBoth
  rw [show (a :: t) ++ ['\n'] = a :: (t ++ ['\n']) from rfl]
  rw [List.dropWhile_cons, if_neg (by simp [h a (by simp)])]
  unfold stripRight
  rw [List.reverse_cons, List.reverse_append]
  rw [show ((['\n'].reverse ++ t.reverse) ++ [a] : Str) = '\n' :: (t.reverse ++ [a]) from by simp]
  rw [List.dropWhile_cons, if_pos (by decide)]
  rw [dropWhile_no hmem]
  simp

theorem usTail_digits {isD : Char → Bool} {s : Str}
    (h : ∀ c ∈ s, isD c = true) (hus : ∀ c, isD c = true → c ≠ '_') :
    usTail isD s = true := by
  induction s with
  | nil => rfl
  | cons c t ih =>
    have hc := h c (by simp)
    rw [usTail_cons, if_neg (hus c hc)]
    simp only [Bool.and_eq_true]
    exact ⟨hc, ih (fun d hd => h d (List.mem_cons_of_mem c hd))⟩

theorem usGood_digits {isD : Char → Bool} {s : Str} (hne : s ≠ [])
    (h : ∀ c ∈ s, isD c = true) (hus : ∀ c, isD c = true → c ≠ '_') :
    usGood isD s = true := by
  cases s with
  | nil => exact absurd rfl hne
  | cons c t =>
    rw [usGood]
    simp only [Bool.and_eq_true]
    exact ⟨h c (by simp), usTail_digits (fun d hd => h d (List.mem_cons_of_mem c hd)) hus⟩

theorem filter_no_us {s : Str} (h : ∀ c ∈ s, ¬ c = '_') :
    s.filter (fun c => !(c == '_')) = s := by
  rw [List.filter_eq_self]
  intro c hc
  simpa using h c hc

theorem decBody_digits {s : Str} (hne : s ≠ []) (h : ∀ c ∈ s, isDecDigit c = true) :
    decBody s = some (decVal s) := by
  have hus : ∀ c, isDecDigit c = true → c ≠ '_' := by
    intro c hc
    exact (decChar_facts c (mem_of_isDecDigit hc)).1
  rw [decBody, if_pos (usGood_digits hne h hus), usValDec,
    filter_no_us (fun c hc => hus c (h c hc))]

theorem hexBody_digits {s : Str} (hne : s ≠ []) (h : ∀ c ∈ s, isHexDigit c = true) :
    hexBody s = some (hexVal s) := by
  have hus : ∀ c, isHexDigit c = true → c ≠ '_' := by
    intro c hc
    exact (hexChar_facts c (mem_of_isHexDigit hc)).2.2.2.2.2.2.2.2.1
  have hnox : ¬ (s.take 2 = str "0x" ∨ s.take 2 = str "0X") := by
    rintro (hx | hx)
    · have : 'x' ∈ s.take 2 := by rw [hx]; decide
      have hxs : 'x' ∈ s := List.mem_of_mem_take this
      exact (hexChar_facts 'x' (mem_of_isHexDigit (h 'x' hxs))).2.2.2.2.2.2.2.2.2.1 rfl
    · have : 'X' ∈ s.take 2 := by rw [hx]; decide
      have hxs : 'X' ∈ s := List.mem_of_mem_take this
      exact (hexChar_facts 'X' (mem_of_isHexDigit (h 'X' hxs))).2.2.2.2.2.2.2.2.2.2.1 rfl
  rw [hexBody, if_neg hnox, if_pos (usGood_digits hne h hus), usValHex,
    filter_no_us (fun c hc => hus c (h c hc))]

theorem pyIntDec_digits {s : Str} (hne : s ≠ []) (h : ∀ c ∈ s, isDecDigit c = true) :
    pyIntDec s = some ((decVal s : Int)) := by
  have hstrip : pyStrip s = s :=
    pyStrip_no (fun c hc => (decChar_facts c (mem_of_isDecDigit (h c hc))).2.2.2.2.2.2.2.1)
  obtain ⟨c, t, rfl⟩ : ∃ c t, s = c :: t := by
    cases s with
    | nil => exact absurd rfl hne
    | cons c t => exact ⟨c, t, rfl⟩
  have hc := h c (by simp)
  unfold pyIntDec
  rw [hstrip, intBody_cons]
  rw [if_neg ((decChar_facts c (mem_of_isDecDigit hc)).2.1),
    if_neg ((decChar_facts c (mem_of_isDecDigit hc)).2.2.1),
    decBody_digits hne h]
  rfl

theorem pyIntDec_natRepr (n : Nat) : pyIntDec (natRepr n) = some ((n : Int)) := by
  obtain ⟨hval, hne, hdig⟩ := natRepr_spec n
  rw [pyIntDec_digits hne hdig, hval]

theorem pyIntDec_intRepr (z : Int) : pyIntDec (intRepr z) = some z := by
  by_cases hz : z < 0
  · rw [intRepr, if_pos hz]
    obtain ⟨hval, hne, hdig⟩ := natRepr_spec (-z).toNat
    have hstrip : pyStrip ('-' :: natRepr (-z).toNat) = '-' :: natRepr (-z).toNat := by
      apply pyStrip_no
      intro c hc
      rcases List.mem_cons.mp hc with rfl | hc
      · decide
      · exact (decChar_facts c (mem_of_isDecDigit (hdig c hc))).2.2.2.2.2.2.2.1
    unfold pyIntDec
    rw [hstrip, intBody_cons, if_pos rfl, decBody_digits hne hdig, hval]
    simp only [Option.map_some']
    congr 1
    have h1 : ((-z).toNat : Int) = -z := Int.toNat_of_nonneg (by omega)
    rw [show Int.ofNat (-z).toNat = ((-z).toNat : Int) from rfl, h1]
    ring
  · rw [intRepr, if_neg hz]
    rw [pyIntDec_natRepr]
    congr 1
    have h1 : (z.toNat : Int) = z := Int.toNat_of_nonneg (by omega)
    exact h1

theorem pyIntHex_digits {s : Str} (hne : s ≠ []) (h : ∀ c ∈ s, isHexDigit c = true) :
    pyIntHex s = some ((hexVal s : Int)) := by
  have hstrip : pyStrip s = s := pyStrip_no (fun c hc => hex_not_space (h c hc))
  obtain ⟨c, t, rfl⟩ : ∃ c t, s = c :: t := by
    cases s with
    | nil => exact absurd rfl hne
    | cons c t => exact ⟨c, t, rfl⟩
  have hc := h c (by simp)
  unfold pyIntHex
  rw [hstrip, intBody_cons]
  rw [if_neg (hex_ne_dash hc),
    if_neg ((hexChar_facts c (mem_of_isHexDigit hc)).2.2.2.2.2.2.2.2.2.2.2.1),
    hexBody_digits hne h]
  rfl

theorem pyIntHex_digits_nl {s : Str} (hne : s ≠ []) (h : ∀ c ∈ s, isHexDigit c = true) :
    pyIntHex (s ++ ['\n']) = some ((hexVal s : Int)) := by
  have hstrip : pyStrip (s ++ ['\n']) = s :=
    pyStrip_trailing_nl hne (fun c hc => hex_not_space (h c hc))
  obtain ⟨c, t, rfl⟩ : ∃ c t, s = c :: t := by
    cases s with
    | nil => exact absurd rfl hne
    | cons c t => exact ⟨c, t, rfl⟩
  have hc := h c (by simp)
  unfold pyIntHex
  rw [hstrip, intBody_cons]
  rw [if_neg (hex_ne_dash hc),
    if_neg ((hexChar_facts c (mem_of_isHexDigit hc)).2.2.2.2.2.2.2.2.2.2.2.1),
    hexBody_digits (by simp) h]
  rfl

theorem hexVal_replicate_zero (k : Nat) : hexVal (List.replicate k '0') = 0 := by
  induction k with
  | zero => rfl
  | succ m ih =>
    rw [List.replicate_succ, show ('0' :: List.replicate m '0' : Str)
      = ['0'] ++ List.replicate m '0' from rfl, hexVal_append, ih,
      show hexVal ['0'] = 0 from rfl]
    simp

theorem hexVal_leftPad (w : Nat) (s : Str) : hexVal (leftPad '0' w s) = hexVal s := by
  rw [leftPad, hexVal_append, hexVal_replicate_zero]
  ring

/-- For `0 ≤ z < 2^32`, `f"{z:08x}"` is exactly 8 lowercase hex digits with
value `z`. -/
theorem pyFormatHex8_spec (z : Int) (h0 : 0 ≤ z) (h32 : z < 4294967296) :
    (pyFormatHex8 z).length = 8 ∧ (∀ c ∈ pyFormatHex8 z, isHexDigit c = true ∧ pyLowerChar c = c) ∧
    hexVal (pyFormatHex8 z) = z.toNat := by
  rw [pyFormatHex8, if_neg (by omega)]
  obtain ⟨hval, hne, hchars, hlen⟩ := hexRepr_spec z.toNat
  have hlen8 : (hexRepr z.toNat).length ≤ 8 := hlen 8 (by omega) (by omega)
  refine ⟨?_, ?_, ?_⟩
  · rw [leftPad, List.length_append, List.length_replicate]
    omega
  · intro c hc
    rcases List.mem_append.mp hc with hc | hc
    · rw [List.eq_of_mem_replicate hc]
      exact ⟨by decide, by decide⟩
    · exact hchars c hc
  · rw [hexVal_leftPad, hval]

/-! ## Anchored-pattern structure -/

theorem hexCore_iff {pre : Str} {n : Nat} {t : Str} :
    hexCore pre n t = true ↔
      ∃ body, t = pre ++ body ∧ body.length = n ∧ ∀ c ∈ body, isHexDigit c = true := by
  constructor
  · intro h
    simp only [hexCore, Bool.and_eq_true, beq_iff_eq] at h
    obtain ⟨⟨hpre, hlen⟩, hall⟩ := h
    obtain ⟨body, rfl⟩ := (List.isPrefixOf_iff_prefix.mp hpre)
    rw [List.drop_left] at hlen hall
    exact ⟨body, rfl, hlen, fun c hc => by
      have := List.all_eq_true.mp hall c hc
      simpa using this⟩
  · rintro ⟨body, rfl, hlen, hall⟩
    simp only [hexCore, Bool.and_eq_true, beq_iff_eq]
    refine ⟨⟨List.isPrefixOf_iff_prefix.mpr ⟨body, rfl⟩, ?_⟩, ?_⟩
    · rw [List.drop_left]
      exact hlen
    · rw [List.drop_left]
      exact List.all_eq_true.mpr (fun c hc => by simpa using hall c hc)

theorem matchHexAnchored_iff {pre : Str} {n : Nat} {s : Str} :
    matchHexAnchored pre n s = true ↔
      (∃ body, s = pre ++ body ∧ body.length = n ∧ ∀ c ∈ body, isHexDigit c = true) ∨
      (∃ body, s = pre ++ body ++ ['\n'] ∧ body.length = n ∧
        ∀ c ∈ body, isHexDigit c = true) := by
  constructor
  · intro h
    simp only [matchHexAnchored, Bool.or_eq_true, Bool.and_eq_true, beq_iff_eq] at h
    rcases h with h | ⟨hlast, hcore⟩
    · exact Or.inl (hexCore_iff.mp h)
    · right
      obtain ⟨body, hdrop, hlen, hall⟩ := hexCore_iff.mp hcore
      have hne : s ≠ [] := by
        intro hs
        subst hs
        simp at hlast
      refine ⟨body, ?_, hlen, hall⟩
      have hlast2 : s.getLast hne = '\n' := by
        have := List.getLast?_eq_getLast s hne
        rw [this] at hlast
        exact (Option.some.injEq _ _).mp hlast
      calc s = s.dropLast ++ [s.getLast hne] := (List.dropLast_append_getLast hne).symm
        _ = pre ++ body ++ ['\n'] := by rw [hdrop, hlast2]
  · rintro (⟨body, rfl, hlen, hall⟩ | ⟨body, rfl, hlen, hall⟩)
    · simp only [matchHexAnchored, Bool.or_eq_true]
      exact Or.inl (hexCore_iff.mpr ⟨body, rfl, hlen, hall⟩)
    · simp only [matchHexAnchored, Bool.or_eq_true, Bool.and_eq_true, beq_iff_eq]
      right
      constructor
      · simp
      · rw [show (pre ++ body ++ ['\n'] : Str).dropLast = pre ++ body from by simp]
        exact hexCore_iff.mpr ⟨body, rfl, hlen, hall⟩

theorem matchHexAnchored_lower {pre : Str} {n : Nat} {s : Str}
    (hpre : pyLower pre = pre) (h : matchHexAnchored pre n s = true) :
    matchHexAnchored pre n (pyLower s) = true ∧ pyLower (pyLower s) = pyLower s := by
  have hprec : ∀ c ∈ pre, pyLowerChar c = c := map_eq_self_mem hpre
  rcases matchHexAnchored_iff.mp h with ⟨body, rfl, hlen, hall⟩ | ⟨body, rfl, hlen, hall⟩
  · constructor
    · apply matchHexAnchored_iff.mpr
      left
      refine ⟨pyLower body, ?_, by simp [pyLower, hlen], ?_⟩
      · simp only [pyLower, List.map_append] at *
        rw [hpre]
      · intro c hc
        obtain ⟨d, hd, rfl⟩ := List.mem_map.mp hc
        exact hex_lower_hex (hall d hd)
    · apply pyLower_fix
      intro c hc
      simp only [pyLower] at hc
      obtain ⟨d, hd, rfl⟩ := List.mem_map.mp hc
      rcases List.mem_append.mp hd with hd | hd
      · rw [hprec d hd, hprec d hd]
      · exact hex_lower_idem (hall d hd)
  · constructor
    · apply matchHexAnchored_iff.mpr
      right
      refine ⟨pyLower body, ?_, by simp [pyLower, hlen], ?_⟩
      · have hnl : pyLowerChar '\n' = '\n' := by decide
        simp only [pyLower, List.map_append] at *
        rw [hpre]
        simp [hnl]
      · intro c hc
        obtain ⟨d, hd, rfl⟩ := List.mem_map.mp hc
        exact hex_lower_hex (hall d hd)
    · apply pyLower_fix
      intro c hc
      simp only [pyLower] at hc
      obtain ⟨d, hd, rfl⟩ := List.mem_map.mp hc
      rcases List.mem_append.mp hd with hd | hd
      · rcases List.mem_append.mp hd with hd | hd
        · rw [hprec d hd, hprec d hd]
        · exact hex_lower_idem (hall d hd)
      · simp only [List.mem_singleton] at hd
        subst hd
        decide


/-! ## `splitOnChar` structure -/

theorem splitOnChar_ne_nil (sep : Char) (s : Str) : splitOnChar sep s ≠ [] := by
  induction s with
  | nil => simp [splitOnChar]
  | cons c cs ih =>
    rw [splitOnChar_cons]
    by_cases h : c = sep
    · simp [h]
    · simp [h]

theorem splitOnChar_no_sep {sep : Char} {s : Str} (h : ∀ c ∈ s, c ≠ sep) :
    splitOnChar sep s = [s] := by
  induction s with
  | nil => rfl
  | cons c cs ih =>
    rw [splitOnChar_cons, if_neg (h c (by simp))]
    rw [ih (fun d hd => h d (List.mem_cons_of_mem c hd))]
    rfl

theorem splitOnChar_append {sep : Char} {a r : Str} (h : ∀ c ∈ a, c ≠ sep) :
    splitOnChar sep (a ++ sep :: r) = a :: splitOnChar sep r := by
  induction a with
  | nil =>
    rw [List.nil_append, splitOnChar_cons, if_pos rfl]
  | cons c a' ih =>
    rw [List.cons_append, splitOnChar_cons, if_neg (h c (by simp))]
    rw [ih (fun d hd => h d (List.mem_cons_of_mem c hd))]
    rfl

theorem splitOnChar_parts_no_sep {sep : Char} {s : Str} :
    ∀ part ∈ splitOnChar sep s, ∀ c ∈ part, c ≠ sep := by
  induction s with
  | nil =>
    intro part hp c hc
    simp only [splitOnChar, List.mem_singleton] at hp
    subst hp
    simp at hc
  | cons a cs ih =>
    intro part hp c hc
    rw [splitOnChar_cons] at hp
    by_cases ha : a = sep
    · rw [if_pos ha] at hp
      rcases List.mem_cons.mp hp with rfl | hp
      · simp at hc
      · exact ih part hp c hc
    · rw [if_neg ha] at hp
      obtain ⟨p, ps, hps⟩ : ∃ p ps, splitOnChar sep cs = p :: ps := by
        cases hsp : splitOnChar sep cs with
        | nil => exact absurd hsp (splitOnChar_ne_nil sep cs)
        | cons p ps => exact ⟨p, ps, rfl⟩
      rw [hps] at hp
      simp only [List.headD_cons, List.tail_cons] at hp
      rcases List.mem_cons.mp hp with rfl | hp
      · rcases List.mem_cons.mp hc with rfl | hc
        · exact ha
        · exact ih p (by rw [hps]; simp) c hc
      · exact ih part (by rw [hps]; exact List.mem_cons_of_mem p hp) c hc

/-- The first split part is a prefix of the input. -/
theorem splitOnChar_head_pre {sep : Char} {s : Str} :
    ∃ rest, s = (splitOnChar sep s).headD [] ++ rest := by
  induction s with
  | nil => exact ⟨[], rfl⟩
  | cons c cs ih =>
    rw [splitOnChar_cons]
    by_cases h : c = sep
    · rw [if_pos h]
      exact ⟨c :: cs, rfl⟩
    · rw [if_neg h]
      obtain ⟨rest, hrest⟩ := ih
      exact ⟨rest, by simpa using hrest⟩

/-- Every split part consists of characters of the input. -/
theorem splitOnChar_parts_mem {sep : Char} {s : Str} :
    ∀ part ∈ splitOnChar sep s, ∀ c ∈ part, c ∈ s := by
  induction s with
  | nil =>
    intro part hp c hc
    simp only [splitOnChar, List.mem_singleton] at hp
    subst hp
    simp at hc
  | cons a cs ih =>
    intro part hp c hc
    rw [splitOnChar_cons] at hp
    by_cases ha : a = sep
    · rw [if_pos ha] at hp
      rcases List.mem_cons.mp hp with rfl | hp
      · simp at hc
      · exact List.mem_cons_of_mem a (ih part hp c hc)
    · rw [if_neg ha] at hp
      obtain ⟨p, ps, hps⟩ : ∃ p ps, splitOnChar sep cs = p :: ps := by
        cases hsp : splitOnChar sep cs with
        | nil => exact absurd hsp (splitOnChar_ne_nil sep cs)
        | cons p ps => exact ⟨p, ps, rfl⟩
      rw [hps] at hp
      simp only [List.headD_cons, List.tail_cons] at hp
      rcases List.mem_cons.mp hp with rfl | hp
      · rcases List.mem_cons.mp hc with rfl | hc
        · simp
        · exact List.mem_cons_of_mem a (ih p (by rw [hps]; simp) c hc)
      · exact List.mem_cons_of_mem a
          (ih part (by rw [hps]; exact List.mem_cons_of_mem p hp) c hc)


/-! ## Identity-map and resource-graph lemmas -/

theorem idLookup_append_self {m : List (GUID × Nat)} {g : GUID} (n : Nat)
    (h : idLookup m g = none) : idLookup (m ++ [(g, n)]) g = some n := by
  induction m with
  | nil => simp [idLookup]
  | cons p m' ih =>
    by_cases hp : p.1 = g
    · exfalso
      unfold idLookup at h
      rw [List.find?_cons_of_pos _ (by simpa using hp)] at h
      simp at h
    · unfold idLookup at h ⊢
      rw [List.cons_append, List.find?_cons_of_neg _ (by simpa using hp)]
      rw [List.find?_cons_of_neg _ (by simpa using hp)] at h
      exact ih h

theorem idLookup_mem {m : List (GUID × Nat)} {g : GUID} {i : Nat}
    (h : idLookup m g = some i) : (g, i) ∈ m := by
  induction m with
  | nil => simp [idLookup] at h
  | cons p m' ih =>
    by_cases hp : p.1 = g
    · unfold idLookup at h
      rw [List.find?_cons_of_pos _ (by simpa using hp)] at h
      simp only [Option.map_some', Option.some.injEq] at h
      have : p = (g, i) := by
        cases p
        simp only at hp h
        simp [hp, h]
      rw [this] at *
      simp
    · unfold idLookup at h
      rw [List.find?_cons_of_neg _ (by simpa using hp)] at h
      exact List.mem_cons_of_mem p (ih h)

theorem get_folder_some {g : GUID} {s : ClientState} {i : Nat}
    (h : idLookup s.identity g = some i) : DWAClient.get_folder g s = (i, s) := by
  unfold DWAClient.get_folder
  rw [h]

theorem get_folder_none {g : GUID} {s : ClientState}
    (h : idLookup s.identity g = none) :
    DWAClient.get_folder g s =
      (s.store.length,
       ⟨s.store ++ [mkRemoteResource .folder g.toText (stubMeta g)],
        s.identity ++ [(g, s.store.length)]⟩) := by
  unfold DWAClient.get_folder
  rw [h]

theorem get_document_some {g : GUID} {s : ClientState} {i : Nat}
    (h : idLookup s.identity g = some i) : DWAClient.get_document g s = (i, s) := by
  unfold DWAClient.get_document
  rw [h]

theorem get_document_none {g : GUID} {s : ClientState}
    (h : idLookup s.identity g = none) :
    DWAClient.get_document g s =
      (s.store.length,
       ⟨s.store ++ [mkRemoteResource .document g.toText (stubMeta g)],
        s.identity ++ [(g, s.store.length)]⟩) := by
  unfold DWAClient.get_document
  rw [h]

theorem inst_hydrate {r : Record} {s : ClientState} {t : Str} {g : GUID} {i : Nat} {nd : Node}
    (ht : dictGet r (str "guid") = some t) (hg : GUID.from_string t = .ok g)
    (hl : idLookup s.identity g = some i) (hnd : s.store[i]? = some nd) :
    DWAClient.instantiate_from_node r s =
      (.ok i, ⟨s.store.set i { nd with meta := dictUpdate nd.meta r, loaded := true },
               s.identity⟩) := by
  simp only [DWAClient.instantiate_from_node, ht, hg, hl, hnd]

theorem inst_create {r : Record} {s : ClientState} {t : Str} {g : GUID}
    (ht : dictGet r (str "guid") = some t) (hg : GUID.from_string t = .ok g)
    (hl : idLookup s.identity g = none) :
    DWAClient.instantiate_from_node r s =
      (.ok s.store.length,
       ⟨s.store ++ [mkRemoteResource (moduleTypeKind r) t r],
        s.identity ++ [(g, s.store.length)]⟩) := by
  simp only [DWAClient.instantiate_from_node, ht, hg, hl]

theorem inst_err_nokey {r : Record} {s : ClientState}
    (ht : dictGet r (str "guid") = none) :
    DWAClient.instantiate_from_node r s = (.error .keyErrorGuid, s) := by
  simp only [DWAClient.instantiate_from_node, ht]

theorem inst_err_parse {r : Record} {s : ClientState} {t : Str} {e : Err}
    (ht : dictGet r (str "guid") = some t) (hg : GUID.from_string t = .error e) :
    DWAClient.instantiate_from_node r s = (.error e, s) := by
  simp only [DWAClient.instantiate_from_node, ht, hg]

theorem inst_hydrate_oob {r : Record} {s : ClientState} {t : Str} {g : GUID} {i : Nat}
    (ht : dictGet r (str "guid") = some t) (hg : GUID.from_string t = .ok g)
    (hl : idLookup s.identity g = some i) (hnd : s.store[i]? = none) :
    DWAClient.instantiate_from_node r s = (.ok i, s) := by
  simp only [DWAClient.instantiate_from_node, ht, hg, hl, hnd]

theorem parseRecordGuid_ok {r : Record} {g : GUID} :
    parseRecordGuid r = .ok g ↔
      ∃ t, dictGet r (str "guid") = some t ∧ GUID.from_string t = .ok g := by
  unfold parseRecordGuid
  cases h : dictGet r (str "guid") with
  | none => simp
  | some t => simp

theorem inst_ok_lookup {r : Record} {s : ClientState} {t : Str} {g : GUID}
    (ht : dictGet r (str "guid") = some t) (hg : GUID.from_string t = .ok g) :
    ∃ i, (DWAClient.instantiate_from_node r s).1 = .ok i ∧
      idLookup ((DWAClient.instantiate_from_node r s).2).identity g = some i := by
  cases hl : idLookup s.identity g with
  | some i =>
    cases hnd : s.store[i]? with
    | some nd =>
      rw [inst_hydrate ht hg hl hnd]
      exact ⟨i, rfl, hl⟩
    | none =>
      rw [inst_hydrate_oob ht hg hl hnd]
      exact ⟨i, rfl, hl⟩
  | none =>
    rw [inst_create ht hg hl]
    exact ⟨s.store.length, rfl, idLookup_append_self _ hl⟩

theorem mkRemoteResource_cache (kind : NodeKind) (t : Str) (m : Record) :
    (mkRemoteResource kind t m).children_cache = none := rfl

theorem inst_wf {r : Record} {s : ClientState} (h : s.Wf) :
    ((DWAClient.instantiate_from_node r s).2).Wf := by
  cases ht : dictGet r (str "guid") with
  | none => rw [inst_err_nokey ht]; exact h
  | some t =>
    cases hg : GUID.from_string t with
    | error e => rw [inst_err_parse ht hg]; exact h
    | ok g =>
      cases hl : idLookup s.identity g with
      | some i =>
        cases hnd : s.store[i]? with
        | some nd =>
          rw [inst_hydrate ht hg hl hnd]
          intro p hp
          simp only [List.length_set]
          exact h p hp
        | none =>
          rw [inst_hydrate_oob ht hg hl hnd]
          exact h
      | none =>
        rw [inst_create ht hg hl]
        intro p hp
        simp only [List.length_append, List.length_singleton]
        rcases List.mem_append.mp hp with hp | hp
        · have := h p hp
          omega
        · simp only [List.mem_singleton] at hp
          subst hp
          simp

theorem inst_cacheAt (r : Record) (s : ClientState) (j : Nat) :
    cacheAt ((DWAClient.instantiate_from_node r s).2) j = cacheAt s j := by
  cases ht : dictGet r (str "guid") with
  | none => rw [inst_err_nokey ht]
  | some t =>
    cases hg : GUID.from_string t with
    | error e => rw [inst_err_parse ht hg]
    | ok g =>
      cases hl : idLookup s.identity g with
      | some i =>
        cases hnd : s.store[i]? with
        | some nd =>
          rw [inst_hydrate ht hg hl hnd]
          unfold cacheAt
          dsimp only
          by_cases hij : j = i
          · subst hij
            have hlen : j < s.store.length := by
              by_contra hge
              rw [List.getElem?_eq_none (by omega)] at hnd
              exact Option.noConfusion hnd
            rw [List.getElem?_set_eq_of_lt _ hlen, hnd]
            rfl
          · rw [List.getElem?_set_ne (fun hh => hij hh.symm)]
        | none =>
          rw [inst_hydrate_oob ht hg hl hnd]
      | none =>
        rw [inst_create ht hg hl]
        unfold cacheAt
        dsimp only
        rcases Nat.lt_trichotomy j s.store.length with hj | hj | hj
        · rw [List.getElem?_append_left hj]
        · subst hj
          rw [List.getElem?_eq_none (le_refl _),
            List.getElem?_append_right (le_refl _)]
          simp [mkRemoteResource]
        · rw [List.getElem?_eq_none (by omega : s.store.length ≤ j),
            List.getElem?_append_right (by omega : s.store.length ≤ j),
            List.getElem?_eq_none (by simp only [List.length_singleton]; omega)]

theorem instAll_cacheAt (records : List Record) (s : ClientState) (j : Nat) :
    cacheAt ((instantiateAll records s).2) j = cacheAt s j := by
  induction records generalizing s with
  | nil => rfl
  | cons r rest ih =>
    have h1 := inst_cacheAt r s j
    rcases hres : DWAClient.instantiate_from_node r s with ⟨res, s1⟩
    rw [hres] at h1
    cases res with
    | error e =>
      have hstep : instantiateAll (r :: rest) s = (.error e, s1) := by
        simp only [instantiateAll, hres]
      rw [hstep]
      exact h1
    | ok i =>
      have h2 := ih s1
      rcases hres2 : instantiateAll rest s1 with ⟨res2, s2⟩
      rw [hres2] at h2
      cases res2 with
      | error e =>
        have hstep : instantiateAll (r :: rest) s = (.error e, s2) := by
          simp only [instantiateAll, hres, hres2]
        rw [hstep]
        show cacheAt s2 j = cacheAt s j
        rw [h2, h1]
      | ok is =>
        have hstep : instantiateAll (r :: rest) s = (.ok (i :: is), s2) := by
          simp only [instantiateAll, hres, hres2]
        rw [hstep]
        show cacheAt s2 j = cacheAt s j
        rw [h2, h1]

theorem instAll_ok_of_all {records : List Record} {s : ClientState}
    (h : ∀ r ∈ records, ∃ g, parseRecordGuid r = .ok g) :
    ∃ ids s1, instantiateAll records s = (.ok ids, s1) ∧ ids.length = records.length := by
  induction records generalizing s with
  | nil => exact ⟨[], s, rfl, rfl⟩
  | cons r rest ih =>
    obtain ⟨g, hgr⟩ := h r (by simp)
    obtain ⟨t, ht, hg⟩ := parseRecordGuid_ok.mp hgr
    obtain ⟨i, hres1, hlook⟩ := @inst_ok_lookup _ s _ _ ht hg
    rcases hres : DWAClient.instantiate_from_node r s with ⟨res, s1⟩
    rw [hres] at hres1
    simp only at hres1
    subst hres1
    obtain ⟨ids, s2, hall, hlen⟩ :=
      @ih s1 (fun r' hr' => h r' (List.mem_cons_of_mem _ hr'))
    refine ⟨i :: ids, s2, ?_, by simp [hlen]⟩
    simp only [instantiateAll, hres, hall]

theorem instAll_err_first {pre : List Record} {r : Record} {post : List Record}
    {s : ClientState} {t : Str} {e : Err}
    (hok : ∀ r' ∈ pre, ∃ g, parseRecordGuid r' = .ok g)
    (ht : dictGet r (str "guid") = some t) (hg : GUID.from_string t = .error e) :
    (instantiateAll (pre ++ r :: post) s).1 = .error e := by
  induction pre generalizing s with
  | nil =>
    rw [List.nil_append]
    have hfail := @inst_err_parse _ s _ _ ht hg
    simp only [instantiateAll, hfail]
  | cons r' pre' ih =>
    obtain ⟨g, hgr⟩ := hok r' (by simp)
    obtain ⟨t', ht', hg'⟩ := parseRecordGuid_ok.mp hgr
    obtain ⟨i, hres1, hlook⟩ := @inst_ok_lookup _ s _ _ ht' hg'
    rcases hres : DWAClient.instantiate_from_node r' s with ⟨res, s1⟩
    rw [hres] at hres1
    simp only at hres1
    subst hres1
    have hih := @ih s1 (fun q hq => hok q (List.mem_cons_of_mem _ hq))
    rcases hres2 : instantiateAll (pre' ++ r :: post) s1 with ⟨res2, s2⟩
    rw [hres2] at hih
    simp only at hih
    subst hih
    rw [List.cons_append]
    simp only [instantiateAll, hres, hres2]

theorem children_cached {records : List Record} {i : Nat} {s : ClientState} {l : List Nat}
    (hc : cacheAt s i = some l) :
    Folder.get_children records i false s = (.ok l, s) := by
  unfold Folder.get_children
  rw [hc]
  rfl

theorem children_fetch {records : List Record} {i : Nat} {refresh : Bool}
    {s : ClientState} (hf : cacheAt s i = none ∨ refresh = true) :
    Folder.get_children records i refresh s = fetchChildren records i s := by
  unfold Folder.get_children
  cases hc : cacheAt s i with
  | none => rfl
  | some l =>
    have hr : refresh = true := by
      rcases hf with hf | hf
      · rw [hc] at hf
        exact Option.noConfusion hf
      · exact hf
    subst hr
    rfl

theorem fetch_err {records : List Record} {i : Nat} {s s1 : ClientState} {e : Err}
    (hrun : instantiateAll records s = (.error e, s1)) :
    fetchChildren records i s = (.error e, s1) := by
  unfold fetchChildren
  rw [hrun]

theorem fetch_ok_fst {records : List Record} {i : Nat} {s s1 : ClientState} {ids : List Nat}
    (hrun : instantiateAll records s = (.ok ids, s1)) :
    (fetchChildren records i s).1 = .ok ids := by
  cases hnd : s1.store[i]? with
  | some nd => simp only [fetchChildren, hrun, hnd]
  | none => simp only [fetchChildren, hrun, hnd]

/-! ## Dictionary semantics -/

theorem dictGet_cons_self {p : Str × Str} {d : Record} {k : Str} (h : p.1 = k) :
    dictGet (p :: d) k = some p.2 := by
  unfold dictGet
  rw [List.find?_cons_of_pos _ (by simpa using h)]
  rfl

theorem dictGet_cons_other {p : Str × Str} {d : Record} {k : Str} (h : ¬ p.1 = k) :
    dictGet (p :: d) k = dictGet d k := by
  unfold dictGet
  rw [List.find?_cons_of_neg _ (by simpa using h)]

theorem dictGet_nil (k : Str) : dictGet [] k = none := rfl

theorem dictGet_dictSet_self (d : Record) (k v : Str) :
    dictGet (dictSet d k v) k = some v := by
  unfold dictSet
  by_cases ha : d.any (fun p => p.1 == k) = true
  · rw [if_pos ha]
    induction d with
    | nil => simp at ha
    | cons p d' ih =>
      rw [List.map_cons]
      by_cases hp : p.1 = k
      · rw [if_pos (by simpa using hp)]
        exact dictGet_cons_self rfl
      · rw [if_neg (by simpa using hp)]
        rw [dictGet_cons_other hp]
        apply ih
        rw [List.any_cons] at ha
        simpa [show (p.1 == k) = false by simpa using hp] using ha
  · rw [if_neg ha]
    induction d with
    | nil => exact dictGet_cons_self rfl
    | cons p d' ih =>
      rw [List.any_cons, Bool.or_eq_true] at ha
      push_neg at ha
      have hp : ¬ p.1 = k := by
        intro hcon
        exact ha.1 (by simpa using hcon)
      rw [List.cons_append, dictGet_cons_other hp]
      exact ih (by simpa using ha.2)

theorem dictGet_dictSet_other {d : Record} {k q v : Str} (h : ¬ q = k) :
    dictGet (dictSet d q v) k = dictGet d k := by
  unfold dictSet
  by_cases ha : d.any (fun p => p.1 == q) = true
  · rw [if_pos ha]
    clear ha
    induction d with
    | nil => rfl
    | cons p d' ih =>
      rw [List.map_cons]
      by_cases hp : p.1 = q
      · rw [if_pos (by simpa using hp)]
        have hqk : ¬ ((q, v) : Str × Str).1 = k := h
        have hpk : ¬ p.1 = k := by
          rw [hp]
          exact h
        rw [dictGet_cons_other hqk, dictGet_cons_other hpk]
        exact ih
      · rw [if_neg (by simpa using hp)]
        by_cases hpk : p.1 = k
        · rw [dictGet_cons_self hpk, dictGet_cons_self hpk]
        · rw [dictGet_cons_other hpk, dictGet_cons_other hpk]
          exact ih
  · rw [if_neg ha]
    clear ha
    induction d with
    | nil =>
      rw [List.nil_append]
      rw [dictGet_cons_other h]
    | cons p d' ih =>
      by_cases hpk : p.1 = k
      · rw [List.cons_append, dictGet_cons_self hpk, dictGet_cons_self hpk]
      · rw [List.cons_append, dictGet_cons_other hpk, dictGet_cons_other hpk]
        exact ih

theorem dictGet_update_skip {d other : Record} {k : Str}
    (h : ∀ p ∈ other, ¬ p.1 = k) :
    dictGet (dictUpdate d other) k = dictGet d k := by
  induction other generalizing d with
  | nil => rfl
  | cons p rest ih =>
    unfold dictUpdate at *
    rw [List.foldl_cons]
    rw [ih (fun q hq => h q (List.mem_cons_of_mem p hq))]
    exact dictGet_dictSet_other (h p (by simp))

theorem dictGet_dictUpdate {d other : Record} {k v : Str}
    (hn : (other.map Prod.fst).Nodup) (h : dictGet other k = some v) :
    dictGet (dictUpdate d other) k = some v := by
  induction other generalizing d with
  | nil => simp [dictGet] at h
  | cons p rest ih =>
    rw [List.map_cons, List.nodup_cons] at hn
    unfold dictUpdate
    rw [List.foldl_cons]
    by_cases hp : p.1 = k
    · have hpv : p.2 = v := by
        rw [dictGet_cons_self hp] at h
        simpa using h
      have hrest : ∀ q ∈ rest, ¬ q.1 = k := by
        intro q hq hqk
        apply hn.1
        rw [← hp, ← hqk] at *
        exact List.mem_map.mpr ⟨q, hq, rfl⟩
      show dictGet (dictUpdate (dictSet d p.1 p.2) rest) k = some v
      rw [dictGet_update_skip hrest, hp, hpv]
      exact dictGet_dictSet_self d k v
    · rw [dictGet_cons_other hp] at h
      exact ih hn.2 h

theorem wf_lookup_get {s : ClientState} {g : GUID} {i : Nat}
    (hWf : s.Wf) (hl : idLookup s.identity g = some i) :
    ∃ nd, s.store[i]? = some nd := by
  have hmem := idLookup_mem hl
  have hlt : i < s.store.length := hWf (g, i) hmem
  exact ⟨s.store[i], List.getElem?_eq_getElem hlt⟩

theorem get_folder_wf {g : GUID} {s : ClientState} (h : s.Wf) :
    ((DWAClient.get_folder g s).2).Wf := by
  cases hl : idLookup s.identity g with
  | some i =>
    rw [get_folder_some hl]
    exact h
  | none =>
    rw [get_folder_none hl]
    intro p hp
    simp only [List.length_append, List.length_singleton]
    rcases List.mem_append.mp hp with hp | hp
    · have := h p hp
      omega
    · simp only [List.mem_singleton] at hp
      subst hp
      simp

theorem get_folder_lookup {g : GUID} {s : ClientState} :
    idLookup ((DWAClient.get_folder g s).2).identity g
      = some ((DWAClient.get_folder g s).1) := by
  cases hl : idLookup s.identity g with
  | some i =>
    rw [get_folder_some hl]
    exact hl
  | none =>
    rw [get_folder_none hl]
    exact idLookup_append_self _ hl

/-- Instantiating a record whose identifier is already mapped to `i` in a
well-formed state returns `i` and makes the record's fields visible through
`i`. -/
theorem inst_into {s : ClientState} {g : GUID} {r2 : Record} {t2 : Str} {i : Nat}
    (hWf : s.Wf) (hl : idLookup s.identity g = some i)
    (ht2 : dictGet r2 (str "guid") = some t2) (hg2 : GUID.from_string t2 = .ok g)
    (hkeys2 : (r2.map Prod.fst).Nodup) :
    (DWAClient.instantiate_from_node r2 s).1 = .ok i ∧
    ∀ k v, dictGet r2 k = some v →
      metaAt (DWAClient.instantiate_from_node r2 s).2 i k = some v := by
  obtain ⟨nd, hnd⟩ := wf_lookup_get hWf hl
  rw [inst_hydrate ht2 hg2 hl hnd]
  have hlt : i < s.store.length := by
    by_contra hge
    rw [List.getElem?_eq_none (by omega)] at hnd
    exact Option.noConfusion hnd
  refine ⟨rfl, ?_⟩
  intro k v hv
  unfold metaAt
  rw [List.getElem?_set_eq_of_lt _ hlt]
  exact dictGet_dictUpdate hkeys2 hv

/-- C3 helper: a successful instantiation leaves the identifier mapped to the
returned index, and preserves the state's well-formedness. -/
theorem inst_lookup_wf {s : ClientState} {g : GUID} {r1 : Record} {t1 : Str}
    (hWf : s.Wf) (ht1 : dictGet r1 (str "guid") = some t1)
    (hg1 : GUID.from_string t1 = .ok g) :
    ∃ i, (DWAClient.instantiate_from_node r1 s).1 = .ok i ∧
      idLookup ((DWAClient.instantiate_from_node r1 s).2).identity g = some i ∧
      ((DWAClient.instantiate_from_node r1 s).2).Wf := by
  obtain ⟨i, h1, h2⟩ := @inst_ok_lookup _ s _ _ ht1 hg1
  exact ⟨i, h1, h2, inst_wf hWf⟩

/-- C3 (confirmed): for any identifier, at most one node instance exists in a
client's identity map: resolving the same identifier by stub creation
(`get_folder`) and then hydration (`_instantiate_from_node`), or by two
hydrations, returns the identical node instance (the same arena index), and
the metadata merged by the second resolution is visible through the reference
obtained first. -/
theorem c3_identity_map (s : ClientState) (g : GUID) (r r1 r2 : Record)
    (t t1 t2 : Str) (hWf : s.Wf)
    (ht : dictGet r (str "guid") = some t) (hg : GUID.from_string t = .ok g)
    (hkeys : (r.map Prod.fst).Nodup)
    (ht1 : dictGet r1 (str "guid") = some t1) (hg1 : GUID.from_string t1 = .ok g)
    (ht2 : dictGet r2 (str "guid") = some t2) (hg2 : GUID.from_string t2 = .ok g)
    (hkeys2 : (r2.map Prod.fst).Nodup) :
    ((DWAClient.instantiate_from_node r (DWAClient.get_folder g s).2).1
        = .ok (DWAClient.get_folder g s).1 ∧
      ∀ k v, dictGet r k = some v →
        metaAt (DWAClient.instantiate_from_node r (DWAClient.get_folder g s).2).2
          (DWAClient.get_folder g s).1 k = some v)
  ∧ (∃ i, (DWAClient.instantiate_from_node r1 s).1 = .ok i ∧
      (DWAClient.instantiate_from_node r2
        (DWAClient.instantiate_from_node r1 s).2).1 = .ok i ∧
      ∀ k v, dictGet r2 k = some v →
        metaAt (DWAClient.instantiate_from_node r2
          (DWAClient.instantiate_from_node r1 s).2).2 i k = some v) := by
  constructor
  · exact inst_into (get_folder_wf hWf) get_folder_lookup ht hg hkeys
  · obtain ⟨i, h1, h2, h3⟩ := inst_lookup_wf hWf ht1 hg1
    obtain ⟨h4, h5⟩ := inst_into h3 h2 ht2 hg2 hkeys2
    exact ⟨i, h1, h4, h5⟩

/-- C3 witness. -/
theorem c3_identity_map_witness :
    ((DWAClient.instantiate_from_node
        [(str "guid", str "AB:48beda447cfb0c27:21:2100003c20:28ffffffff"),
         (str "mainAttribute", str "My Module")]
        (DWAClient.get_folder
          ⟨str "48beda447cfb0c27", str "21", str "2100003c20", str "28ffffffff", none⟩
          ⟨[], []⟩).2).1
      = .ok (DWAClient.get_folder
          ⟨str "48beda447cfb0c27", str "21", str "2100003c20", str "28ffffffff", none⟩
          ⟨[], []⟩).1) := by
  have h := c3_identity_map ⟨[], []⟩
    ⟨str "48beda447cfb0c27", str "21", str "2100003c20", str "28ffffffff", none⟩
    [(str "guid", str "AB:48beda447cfb0c27:21:2100003c20:28ffffffff"),
     (str "mainAttribute", str "My Module")]
    [(str "guid", str "AB:48beda447cfb0c27:21:2100003c20:28ffffffff")]
    [(str "guid", str "AB:48beda447cfb0c27:21:2100003c20:28ffffffff")]
    (str "AB:48beda447cfb0c27:21:2100003c20:28ffffffff")
    (str "AB:48beda447cfb0c27:21:2100003c20:28ffffffff")
    (str "AB:48beda447cfb0c27:21:2100003c20:28ffffffff")
    (by intro p hp; simp at hp) (by decide) (by decide) (by decide)
    (by decide) (by decide) (by decide) (by decide) (by decide)
  exact h.1.1

/-- C7 (confirmed): when `Folder.get_children` performs the fetch, either every
child record's identifier parses and an ordered child list of the same length
is returned, or the codec error of the first bad record propagates unchanged
and the whole fetch aborts with no partial child list. -/
theorem c7_children_all_or_nothing (records : List Record) (i : Nat) (refresh : Bool)
    (s : ClientState) (hfetch : cacheAt s i = none ∨ refresh = true) :
    ((∀ r ∈ records, ∃ g, parseRecordGuid r = .ok g) →
      ∃ ids, (Folder.get_children records i refresh s).1 = .ok ids ∧
        ids.length = records.length)
  ∧ (∀ pre r post t e, records = pre ++ r :: post →
      (∀ r' ∈ pre, ∃ g, parseRecordGuid r' = .ok g) →
      dictGet r (str "guid") = some t → GUID.from_string t = .error e →
      (Folder.get_children records i refresh s).1 = .error e) := by
  constructor
  · intro hall
    obtain ⟨ids, s1, hrun, hlen⟩ := instAll_ok_of_all hall
    refine ⟨ids, ?_, hlen⟩
    rw [children_fetch hfetch]
    exact fetch_ok_fst hrun
  · intro pre r post t e hrec hok ht hg
    rw [children_fetch hfetch]
    subst hrec
    have h1 := @instAll_err_first _ _ post s _ _ hok ht hg
    rcases hrun : instantiateAll (pre ++ r :: post) s with ⟨res, s1⟩
    rw [hrun] at h1
    simp only at h1
    subst h1
    rw [fetch_err hrun]

/-- C7 witness. -/
theorem c7_children_all_or_nothing_witness :
    (Folder.get_children
      [[(str "guid", str "AB:48beda447cfb0c27:1f:1f00000003:28ffffffff")],
       [(str "guid", str "not a guid")]] 0 false ⟨[], []⟩).1
      = .error .invalidGuidFormat := by
  have h := (c7_children_all_or_nothing
    [[(str "guid", str "AB:48beda447cfb0c27:1f:1f00000003:28ffffffff")],
     [(str "guid", str "not a guid")]] 0 false ⟨[], []⟩ (by left; rfl)).2
    [[(str "guid", str "AB:48beda447cfb0c27:1f:1f00000003:28ffffffff")]]
    [(str "guid", str "not a guid")] [] (str "not a guid") .invalidGuidFormat
    rfl ?hpre (by decide) (by decide)
  case hpre =>
    intro r' hr'
    simp only [List.mem_singleton] at hr'
    subst hr'
    exact ⟨⟨str "48beda447cfb0c27", str "1f", str "1f00000003", str "28ffffffff", none⟩,
      by decide⟩
  exact h

/-- C10 (confirmed): `Folder.get_children` is atomic with respect to the
node's child cache on error: when the fetch is performed and aborts, the
cached child list of the node is exactly what it was before the call. -/
theorem c10_cache_atomic (records : List Record) (i : Nat) (refresh : Bool)
    (s : ClientState) (e : Err)
    (hfetch : cacheAt s i = none ∨ refresh = true)
    (herr : (Folder.get_children records i refresh s).1 = .error e) :
    cacheAt ((Folder.get_children records i refresh s).2) i = cacheAt s i := by
  rw [children_fetch hfetch] at herr ⊢
  rcases hrun : instantiateAll records s with ⟨res, s1⟩
  cases res with
  | error e' =>
    rw [fetch_err hrun]
    have hkeep := instAll_cacheAt records s i
    rw [hrun] at hkeep
    exact hkeep
  | ok ids =>
    rw [fetch_ok_fst hrun] at herr
    exact absurd herr (by simp)

/-- C10 witness. -/
theorem c10_cache_atomic_witness :
    cacheAt ((Folder.get_children [[(str "guid", str "zzz")]] 0 true
      ⟨[⟨str "f", [], true, some [7], .folder⟩], []⟩).2) 0 = some [7] := by
  have h := c10_cache_atomic [[(str "guid", str "zzz")]] 0 true
    ⟨[⟨str "f", [], true, some [7], .folder⟩], []⟩ .invalidGuidFormat
    (by right; rfl) (by decide)
  rw [h]
  decide

/-- C8 (amended): the stub-creating lookups return the existing node unchanged
when the identifier is already mapped; otherwise they build a stub node whose
metadata carries exactly the identifier text (under `guid`) and the
display-name fallback equal to the identifier's own text form (under
`mainAttribute`), insert it into the map, and return it — but the stub is
marked loaded, because `RemoteResource.__init__` computes `_loaded =
bool(meta)` and the stub metadata is non-empty (the claim's word "unloaded"
does not hold). -/
theorem c8_stub_creation (g : GUID) (s : ClientState) :
    (∀ i, idLookup s.identity g = some i →
        DWAClient.get_folder g s = (i, s) ∧ DWAClient.get_document g s = (i, s))
  ∧ (idLookup s.identity g = none →
      DWAClient.get_folder g s =
        (s.store.length,
         ⟨s.store ++ [⟨g.toText, stubMeta g, true, none, .folder⟩],
          s.identity ++ [(g, s.store.length)]⟩) ∧
      DWAClient.get_document g s =
        (s.store.length,
         ⟨s.store ++ [⟨g.toText, stubMeta g, true, none, .document⟩],
          s.identity ++ [(g, s.store.length)]⟩)) := by
  constructor
  · intro i hi
    exact ⟨get_folder_some hi, get_document_some hi⟩
  · intro hn
    exact ⟨get_folder_none hn, get_document_none hn⟩

/-- C8 witness. -/
theorem c8_stub_creation_witness :
    DWAClient.get_folder
      ⟨str "48beda447cfb0c27", str "21", str "2100003c20", str "28ffffffff", none⟩
      ⟨[], []⟩
    = (0, ⟨[⟨GUID.toText ⟨str "48beda447cfb0c27", str "21", str "2100003c20",
              str "28ffffffff", none⟩,
            stubMeta ⟨str "48beda447cfb0c27", str "21", str "2100003c20",
              str "28ffffffff", none⟩, true, none, .folder⟩],
        [(⟨str "48beda447cfb0c27", str "21", str "2100003c20", str "28ffffffff", none⟩, 0)]⟩) :=
  ((c8_stub_creation
    ⟨str "48beda447cfb0c27", str "21", str "2100003c20", str "28ffffffff", none⟩
    ⟨[], []⟩).2 (by decide)).1

/-- C8 counterexample: the claim says the stub-creating lookup constructs an
*unloaded* node, but the node `DWAClient.get_folder` creates for a fresh
identifier has its loaded flag set (`_loaded = bool(meta)` with two metadata
entries). -/
theorem c8_counterexample :
    ((DWAClient.get_folder
        ⟨str "48beda447cfb0c27", str "21", str "2100003c20", str "28ffffffff", none⟩
        ⟨[], []⟩).2.store.map Node.loaded) = [true] := by
  decide

/-! ## GUID field structure from well-formedness -/

theorem wf_fields {g : GUID} (h : GUID.Wf g = true) :
    matchHexAnchored [] 16 g.dbid = true ∧ matchHexAnchored [] 2 g.typecode = true ∧
    matchHexAnchored [] 10 g.parent_key = true ∧
    matchHexAnchored (str "28") 8 g.object_key = true ∧
    pyLower g.dbid = g.dbid ∧ pyLower g.typecode = g.typecode ∧
    pyLower g.parent_key = g.parent_key ∧ pyLower g.object_key = g.object_key := by
  unfold GUID.Wf at h
  simp only [Bool.and_eq_true, beq_iff_eq] at h
  tauto

/-- C9 (amended): `GUID.get_object_id` is defined for every identifier, of any
kind, and equals the last 8 hex digits of `object_key` read as an unsigned
32-bit big-endian integer (the trailing-newline spelling admitted by the
anchored pattern strips to the same 8 digits); in particular `2800000002`
gives 2 and the sentinel `28ffffffff` gives 4294967295.  A non-object
identifier returns 4294967295 only when its `object_key` is the sentinel. -/
theorem c9_object_number (g : GUID) (hWf : GUID.Wf g = true) :
    (∃ h8, (g.object_key = str "28" ++ h8 ∨ g.object_key = str "28" ++ h8 ++ ['\n'])
      ∧ h8.length = 8 ∧ (∀ c ∈ h8, isHexDigit c = true)
      ∧ g.get_object_id = some ((hexVal h8 : Int))
      ∧ hexVal h8 < 4294967296)
  ∧ (g.object_key = str "2800000002" → g.get_object_id = some 2)
  ∧ (g.object_key = str "28ffffffff" → g.get_object_id = some 4294967295) := by
  refine ⟨?_, ?_, ?_⟩
  · obtain ⟨-, -, -, hok, -, -, -, -⟩ := wf_fields hWf
    rcases matchHexAnchored_iff.mp hok with ⟨body, hsh, hlen, hall⟩ | ⟨body, hsh, hlen, hall⟩
    · refine ⟨body, Or.inl hsh, hlen, hall, ?_, ?_⟩
      · unfold GUID.get_object_id
        rw [hsh]
        rw [show (str "28" ++ body).drop 2 = body from rfl]
        exact pyIntHex_digits (by intro hnil; rw [hnil] at hlen; simp at hlen) hall
      · have := hexVal_lt (List.all_eq_true.mpr (fun c hc => by simpa using hall c hc))
        rw [hlen] at this
        omega
    · refine ⟨body, Or.inr hsh, hlen, hall, ?_, ?_⟩
      · unfold GUID.get_object_id
        rw [hsh]
        rw [show (str "28" ++ body ++ ['\n']).drop 2 = body ++ ['\n'] from rfl]
        exact pyIntHex_digits_nl (by intro hnil; rw [hnil] at hlen; simp at hlen) hall
      · have := hexVal_lt (List.all_eq_true.mpr (fun c hc => by simpa using hall c hc))
        rw [hlen] at this
        omega
  · intro hk
    unfold GUID.get_object_id
    rw [hk]
    decide
  · intro hk
    unfold GUID.get_object_id
    rw [hk]
    decide

/-- C9 witness. -/
theorem c9_object_number_witness :
    (⟨str "48beda447cfb0c27", str "23", str "2100003c20", str "2800000002",
      none⟩ : GUID).get_object_id = some 2 :=
  (c9_object_number
    ⟨str "48beda447cfb0c27", str "23", str "2100003c20", str "2800000002", none⟩
    (by decide)).2.1 (by decide)

/-- C9 counterexample: the claim states the operation "returns 4294967295 also
for identifiers of non-object kinds", but a valid module-kind identifier may
carry a non-sentinel object key, and then `get_object_id` returns that key's
value instead. -/
theorem c9_counterexample :
    GUID.init (str "48beda447cfb0c27") (str "21") (str "2100003c20")
        (str "2800000005") none
      = .ok ⟨str "48beda447cfb0c27", str "21", str "2100003c20", str "2800000005", none⟩
    ∧ (⟨str "48beda447cfb0c27", str "21", str "2100003c20", str "2800000005",
        none⟩ : GUID).get_resource_type = .ok .MODULE
    ∧ (⟨str "48beda447cfb0c27", str "21", str "2100003c20", str "2800000005",
        none⟩ : GUID).get_object_id = some 5
    ∧ (5 : Int) ≠ 4294967295 := by
  refine ⟨by decide, by decide, by decide, by decide⟩

theorem grt_1f_eq {g : GUID} (htc : g.typecode = str "1f") {v : Int}
    (hv : pyIntHex (lastN 8 g.parent_key) = some v) :
    g.get_resource_type = .ok (if 4096 ≤ v then .PROJECT else .FOLDER) := by
  unfold GUID.get_resource_type
  rw [htc, if_neg (by decide), if_neg (by decide), if_pos rfl, hv]

/-- C4 (amended): `GUID.get_resource_type` is a pure function of `type_code`
and the parent-key threshold: `21` yields module and `23` yields object; for
`1f` with a canonical 10-hex-digit parent key the result is project exactly
when the trailing 8 hex digits are at least `0x1000` (so `0x0fff` is folder
and `0x1000` is project), while for a parent key admitted with a trailing
newline the comparison applies to the newline-stripped last 8 characters,
which are only 7 hex digits; any other stored type code fails with the
unknown-type-code error. -/
theorem c4_kind_derivation (g : GUID) (hWf : GUID.Wf g = true) :
    (g.typecode = str "21" → g.get_resource_type = .ok .MODULE)
  ∧ (g.typecode = str "23" → g.get_resource_type = .ok .OBJECT)
  ∧ (g.typecode = str "1f" → g.parent_key.length = 10 →
      g.get_resource_type =
        .ok (if 4096 ≤ hexVal (lastN 8 g.parent_key) then .PROJECT else .FOLDER))
  ∧ (g.typecode = str "1f" → g.parent_key.length = 11 →
      g.get_resource_type =
        .ok (if 4096 ≤ hexVal (lastN 7 g.parent_key.dropLast) then .PROJECT else .FOLDER))
  ∧ (¬ g.typecode = str "21" → ¬ g.typecode = str "23" → ¬ g.typecode = str "1f" →
      g.get_resource_type = .error .unknownTypeCode) := by
  obtain ⟨-, -, hpk, -, -, -, -, -⟩ := wf_fields hWf
  refine ⟨?_, ?_, ?_, ?_, ?_⟩
  · intro htc
    unfold GUID.get_resource_type
    rw [htc, if_pos rfl]
  · intro htc
    unfold GUID.get_resource_type
    rw [htc, if_neg (by decide), if_pos rfl]
  · intro htc hlen10
    rcases matchHexAnchored_iff.mp hpk with ⟨body, hsh, hlen, hall⟩ | ⟨body, hsh, hlen, hall⟩
    · rw [List.nil_append] at hsh
      subst hsh
      have hdrop : lastN 8 g.parent_key = g.parent_key.drop 2 := by
        unfold lastN
        rw [hlen]
      have hval : pyIntHex (lastN 8 g.parent_key)
          = some ((hexVal (lastN 8 g.parent_key) : Int)) := by
        apply pyIntHex_digits
        · intro hnil
          rw [hdrop] at hnil
          have hn2 := congrArg List.length hnil
          rw [List.length_drop, hlen] at hn2
          simp at hn2
        · intro c hc
          rw [hdrop] at hc
          exact hall c (List.mem_of_mem_drop hc)
      rw [grt_1f_eq htc hval]
      by_cases hv : 4096 ≤ hexVal (lastN 8 g.parent_key)
      · rw [if_pos (by exact_mod_cast hv), if_pos hv]
      · rw [if_neg (by exact_mod_cast hv), if_neg hv]
    · rw [List.nil_append] at hsh
      exfalso
      have hn2 := congrArg List.length hsh
      rw [hlen10, List.length_append, List.length_singleton, hlen] at hn2
      omega
  · intro htc hlen11
    rcases matchHexAnchored_iff.mp hpk with ⟨body, hsh, hlen, hall⟩ | ⟨body, hsh, hlen, hall⟩
    · rw [List.nil_append] at hsh
      exfalso
      rw [hsh, hlen] at hlen11
      omega
    · rw [List.nil_append] at hsh
      have hdl : g.parent_key.dropLast = body := by
        rw [hsh]
        simp
      have h78 : lastN 8 g.parent_key = body.drop 3 ++ ['\n'] := by
        unfold lastN
        rw [hsh, List.length_append, List.length_singleton, hlen]
        rw [List.drop_append_of_le_length (by rw [hlen]; omega)]
      have hval : pyIntHex (lastN 8 g.parent_key)
          = some ((hexVal (body.drop 3) : Int)) := by
        rw [h78]
        apply pyIntHex_digits_nl
        · intro hnil
          have hn2 := congrArg List.length hnil
          rw [List.length_drop, hlen] at hn2
          simp at hn2
        · intro c hc
          exact hall c (List.mem_of_mem_drop hc)
      have h7 : lastN 7 g.parent_key.dropLast = body.drop 3 := by
        rw [hdl]
        unfold lastN
        rw [hlen]
      rw [grt_1f_eq htc hval, h7]
      by_cases hv : 4096 ≤ hexVal (body.drop 3)
      · rw [if_pos (by exact_mod_cast hv), if_pos hv]
      · rw [if_neg (by exact_mod_cast hv), if_neg hv]
  · intro h1 h2 h3
    unfold GUID.get_resource_type
    rw [if_neg h1, if_neg h2, if_neg h3]

/-- C4 witness, pinned at the threshold boundary `0x1000`. -/
theorem c4_kind_derivation_witness :
    (⟨str "48beda447cfb0c27", str "1f", str "1f00001000", str "28ffffffff",
      none⟩ : GUID).get_resource_type = .ok .PROJECT := by
  have h := (c4_kind_derivation
    ⟨str "48beda447cfb0c27", str "1f", str "1f00001000", str "28ffffffff", none⟩
    (by decide)).2.2.1 (by decide) (by decide)
  rw [h]
  decide

/-- C4 counterexample: `GUID.__init__`'s anchored pattern accepts a parent key
with a trailing newline (CPython `$` semantics); on such an identifier the
trailing 8 *hex digits* of `parent_key` are at least `0x1000`, yet
`get_resource_type` derives folder, because `parent_key[-8:]` covers only 7
hex digits before the stripped newline — refuting the claim that type code
`1f` yields project exactly when the trailing 8 hex digits are `≥ 0x1000`. -/
theorem c4_counterexample :
    GUID.init (str "48beda447cfb0c27") (str "1f") (str "1f10000fff\n")
        (str "28ffffffff") none
      = .ok ⟨str "48beda447cfb0c27", str "1f", str "1f10000fff\n", str "28ffffffff", none⟩
    ∧ lastN 8 ((str "1f10000fff\n").filter isHexDigit) = str "10000fff"
    ∧ 4096 ≤ hexVal (str "10000fff")
    ∧ (⟨str "48beda447cfb0c27", str "1f", str "1f10000fff\n", str "28ffffffff",
        none⟩ : GUID).get_resource_type = .ok .FOLDER := by
  refine ⟨by decide, by decide, by decide, by decide⟩

/-! ## `GUID.init` and `GUID.from_string` structure -/

theorem init_err_dbid {d t p o : Str} {bk : Option BaselineKey}
    (h : matchHexAnchored [] 16 d = false) :
    GUID.init d t p o bk = .error .invalidDatabaseId := by
  unfold GUID.init
  rw [if_pos (by simp [h])]

theorem init_err_tc {d t p o : Str} {bk : Option BaselineKey}
    (h1 : matchHexAnchored [] 16 d = true) (h : matchHexAnchored [] 2 t = false) :
    GUID.init d t p o bk = .error .invalidTypeCode := by
  unfold GUID.init
  rw [if_neg (by simp [h1]), if_pos (by simp [h])]

theorem init_err_pk {d t p o : Str} {bk : Option BaselineKey}
    (h1 : matchHexAnchored [] 16 d = true) (h2 : matchHexAnchored [] 2 t = true)
    (h : matchHexAnchored [] 10 p = false) :
    GUID.init d t p o bk = .error .invalidModuleSegment := by
  unfold GUID.init
  rw [if_neg (by simp [h1]), if_neg (by simp [h2]), if_pos (by simp [h])]

theorem init_err_ok {d t p o : Str} {bk : Option BaselineKey}
    (h1 : matchHexAnchored [] 16 d = true) (h2 : matchHexAnchored [] 2 t = true)
    (h3 : matchHexAnchored [] 10 p = true) (h : matchHexAnchored (str "28") 8 o = false) :
    GUID.init d t p o bk = .error .invalidObjectSegment := by
  unfold GUID.init
  rw [if_neg (by simp [h1]), if_neg (by simp [h2]), if_neg (by simp [h3]),
    if_pos (by simp [h])]

theorem init_ok_all {d t p o : Str} {bk : Option BaselineKey}
    (h1 : matchHexAnchored [] 16 d = true) (h2 : matchHexAnchored [] 2 t = true)
    (h3 : matchHexAnchored [] 10 p = true) (h4 : matchHexAnchored (str "28") 8 o = true) :
    GUID.init d t p o bk = .ok ⟨pyLower d, pyLower t, pyLower p, pyLower o, bk⟩ := by
  unfold GUID.init
  rw [if_neg (by simp [h1]), if_neg (by simp [h2]), if_neg (by simp [h3]),
    if_neg (by simp [h4])]

theorem init_ok_iff {d t p o : Str} {bk : Option BaselineKey} {g : GUID} :
    GUID.init d t p o bk = .ok g ↔
      matchHexAnchored [] 16 d = true ∧ matchHexAnchored [] 2 t = true ∧
      matchHexAnchored [] 10 p = true ∧ matchHexAnchored (str "28") 8 o = true ∧
      g = ⟨pyLower d, pyLower t, pyLower p, pyLower o, bk⟩ := by
  constructor
  · intro h
    by_cases h1 : matchHexAnchored [] 16 d = true
    · by_cases h2 : matchHexAnchored [] 2 t = true
      · by_cases h3 : matchHexAnchored [] 10 p = true
        · by_cases h4 : matchHexAnchored (str "28") 8 o = true
          · rw [init_ok_all h1 h2 h3 h4] at h
            refine ⟨h1, h2, h3, h4, ?_⟩
            exact ((Except.ok.injEq _ _).mp h).symm
          · rw [init_err_ok h1 h2 h3 (by simpa using h4)] at h
            exact absurd h (by simp)
        · rw [init_err_pk h1 h2 (by simpa using h3)] at h
          exact absurd h (by simp)
      · rw [init_err_tc h1 (by simpa using h2)] at h
        exact absurd h (by simp)
    · rw [init_err_dbid (by simpa using h1)] at h
      exact absurd h (by simp)
  · rintro ⟨h1, h2, h3, h4, rfl⟩
    exact init_ok_all h1 h2 h3 h4

theorem init_isOk (d t p o : Str) (bk : Option BaselineKey) :
    (GUID.init d t p o bk).isOk =
      (matchHexAnchored [] 16 d && matchHexAnchored [] 2 t &&
       matchHexAnchored [] 10 p && matchHexAnchored (str "28") 8 o) := by
  by_cases h1 : matchHexAnchored [] 16 d = true
  · by_cases h2 : matchHexAnchored [] 2 t = true
    · by_cases h3 : matchHexAnchored [] 10 p = true
      · by_cases h4 : matchHexAnchored (str "28") 8 o = true
        · rw [init_ok_all h1 h2 h3 h4, h1, h2, h3, h4]
          rfl
        · rw [Bool.not_eq_true] at h4
          rw [init_err_ok h1 h2 h3 h4, h4]
          simp [Except.isOk, Except.toBool]
      · rw [Bool.not_eq_true] at h3
        rw [init_err_pk h1 h2 h3, h3]
        simp [Except.isOk, Except.toBool]
    · rw [Bool.not_eq_true] at h2
      rw [init_err_tc h1 h2, h2]
      simp [Except.isOk, Except.toBool]
  · rw [Bool.not_eq_true] at h1
    rw [init_err_dbid h1, h1]
    simp [Except.isOk, Except.toBool]

theorem from_string_pre_no {s : Str} (hpre : (str "AB:").isPrefixOf s = false) :
    GUID.from_string s = .error .invalidGuidFormat := by
  unfold GUID.from_string
  rw [if_neg (by simp [hpre])]

theorem from_string_eq5 {s a d t p o : Str}
    (hpre : (str "AB:").isPrefixOf s = true)
    (hsplit : splitOnChar ':' s = [a, d, t, p, o]) :
    GUID.from_string s = GUID.init d t p o none := by
  unfold GUID.from_string
  rw [if_pos hpre, hsplit]

theorem from_string_eq6_err {s a d t p o bk : Str} {e : Err}
    (hpre : (str "AB:").isPrefixOf s = true)
    (hsplit : splitOnChar ':' s = [a, d, t, p, o, bk])
    (hbk : BaselineKey.from_string bk = .error e) :
    GUID.from_string s = .error e := by
  unfold GUID.from_string
  rw [if_pos hpre, hsplit]
  simp only [hbk]

theorem from_string_eq6_ok {s a d t p o bk : Str} {b : BaselineKey}
    (hpre : (str "AB:").isPrefixOf s = true)
    (hsplit : splitOnChar ':' s = [a, d, t, p, o, bk])
    (hbk : BaselineKey.from_string bk = .ok b) :
    GUID.from_string s = GUID.init d t p o (some b) := by
  unfold GUID.from_string
  rw [if_pos hpre, hsplit]
  simp only [hbk]

/-! ## `URN.init` and conversion structure -/

theorem urn_init_nonobj {dbid key : Str} {rt : DWAResourceType} (hrt : ¬ rt = .OBJECT)
    (hd : matchHexAnchored [] 16 dbid = true) (hk : matchHexAnchored [] 8 key = true) :
    URN.init dbid rt key none none = .ok ⟨pyLower dbid, rt, pyLower key, none, none⟩ := by
  unfold URN.init
  rw [if_neg (by simp [hd]), if_neg hrt, if_neg (by simp [hk])]

theorem urn_init_object {dbid key mkey : Str} {n : Int}
    (hd : matchHexAnchored [] 16 dbid = true) (hn : ¬ n < 0)
    (hmk : matchHexAnchored [] 8 mkey = true) (hne : mkey.isEmpty = false) :
    URN.init dbid .OBJECT key (some n) (some mkey)
      = .ok ⟨pyLower dbid, .OBJECT, pyLower key, some n, some (pyLower mkey)⟩ := by
  unfold URN.init
  rw [if_neg (by simp [hd]), if_pos rfl]
  show (if n < 0 then (Except.error Err.invalidObjectNumber : Except Err URN)
    else if ¬ matchHexAnchored [] 8 mkey = true then .error .invalidModuleKeyForObjectUrn
    else .ok ⟨pyLower dbid, .OBJECT, pyLower key, some n,
      if mkey.isEmpty = true then none else some (pyLower mkey)⟩) = _
  rw [if_neg hn, if_neg (by simp [hmk]), hne]
  rfl

theorem match8_ne_empty {s : Str} (h : matchHexAnchored [] 8 s = true) :
    s.isEmpty = false := by
  have hlen : s.length = 8 ∨ s.length = 9 := by
    rcases matchHexAnchored_iff.mp h with ⟨body, hsh, hb, -⟩ | ⟨body, hsh, hb, -⟩
    · rw [List.nil_append] at hsh
      left
      rw [hsh, hb]
    · rw [List.nil_append] at hsh
      right
      rw [hsh]
      simp [hb]
  cases s with
  | nil => simp at hlen
  | cons c t => rfl

theorem from_urn_module {u : URN} (hrt : u.resource_type = .MODULE) :
    GUID.from_urn u
      = GUID.init u.dbid (str "21") (str "21" ++ u.key) (str "28ffffffff") none := by
  unfold GUID.from_urn
  rw [hrt]

theorem from_urn_project {u : URN} (hrt : u.resource_type = .PROJECT) :
    GUID.from_urn u
      = GUID.init u.dbid (str "1f") (str "1f" ++ u.key) (str "28ffffffff") none := by
  unfold GUID.from_urn
  rw [hrt]

theorem from_urn_folder {u : URN} (hrt : u.resource_type = .FOLDER) :
    GUID.from_urn u
      = GUID.init u.dbid (str "1f") (str "1f" ++ u.key) (str "28ffffffff") none := by
  unfold GUID.from_urn
  rw [hrt]

theorem from_urn_object {u : URN} {mkey : Str} {n : Int} (hrt : u.resource_type = .OBJECT)
    (hmk : u.module_key = some mkey) (hno : u.object_no = some n) :
    GUID.from_urn u
      = GUID.init u.dbid (str "23") (str "21" ++ mkey) (str "28" ++ pyFormatHex8 n) none := by
  unfold GUID.from_urn
  rw [hrt, hmk, hno]

theorem from_guid_nonobj {g : GUID} {rt : DWAResourceType}
    (hrt : g.get_resource_type = .ok rt) (hne : ¬ rt = .OBJECT) :
    URN.from_guid g = URN.init g.dbid rt (lastN 8 g.parent_key) none none := by
  unfold URN.from_guid
  rw [hrt]
  simp only [if_neg hne]

theorem from_guid_object {g : GUID} {n : Int}
    (hrt : g.get_resource_type = .ok .OBJECT) (hid : g.get_object_id = some n) :
    URN.from_guid g
      = URN.init g.dbid .OBJECT (lastN 8 g.parent_key) (some n)
          (some (lastN 8 g.parent_key)) := by
  unfold URN.from_guid
  rw [hrt]
  simp only [if_pos rfl, hid]
  rw [if_pos trivial]

theorem lastN_append2 {a b : Str} (ha : a.length = 2) (hb : b.length = 8) :
    lastN 8 (a ++ b) = b := by
  unfold lastN
  rw [List.length_append, ha, hb]
  rw [show (2 + 8 - 8) = 2 from rfl, ← ha, List.drop_left]

theorem pyLower_append (a b : Str) : pyLower (a ++ b) = pyLower a ++ pyLower b :=
  List.map_append pyLowerChar a b

/-- C5 (confirmed, spec-modelled): `module_urn_from_object_urn` maps an
object-kind public identifier to the module-kind identifier with the same
`database_id` and the object's `module_key` as the module's `key`, and fails
with the wrong-kind error on any non-object identifier; on the test's input
`urn:rational::1-48beda447cfb0c27-O-13-0000fa00` it yields
`urn:rational::1-48beda447cfb0c27-M-0000fa00`. -/
theorem c5_module_urn (u : URN) (hWf : URN.Wf u = true) :
    (u.resource_type = .OBJECT →
      ∃ mkey, u.module_key = some mkey ∧
        module_urn_from_object_urn u = .ok ⟨u.dbid, .MODULE, mkey, none, none⟩)
  ∧ (¬ u.resource_type = .OBJECT →
      module_urn_from_object_urn u = .error .wrongKind)
  ∧ (URN.from_string (str "urn:rational::1-48beda447cfb0c27-O-13-0000fa00")
      = .ok ⟨str "48beda447cfb0c27", .OBJECT, str "0000fa00", some 13, some (str "0000fa00")⟩
    ∧ module_urn_from_object_urn
        ⟨str "48beda447cfb0c27", .OBJECT, str "0000fa00", some 13, some (str "0000fa00")⟩
      = .ok ⟨str "48beda447cfb0c27", .MODULE, str "0000fa00", none, none⟩
    ∧ URN.toText ⟨str "48beda447cfb0c27", .MODULE, str "0000fa00", none, none⟩
      = str "urn:rational::1-48beda447cfb0c27-M-0000fa00") := by
  obtain ⟨ud, urt, uk, uno, umk⟩ := u
  refine ⟨?_, ?_, by decide, by decide, by decide⟩
  · intro hrt
    have hrt2 : urt = .OBJECT := hrt
    subst hrt2
    cases uno with
    | none =>
      exfalso
      unfold URN.Wf at hWf
      simp at hWf
    | some n =>
      cases umk with
      | none =>
        exfalso
        unfold URN.Wf at hWf
        simp at hWf
      | some mkey =>
        unfold URN.Wf at hWf
        simp only [Bool.and_eq_true, beq_iff_eq, decide_eq_true_eq] at hWf
        obtain ⟨⟨⟨hd, hdl⟩, hkl⟩, ⟨-, hmk8⟩, hmkl⟩ := hWf
        refine ⟨mkey, rfl, ?_⟩
        have hres : module_urn_from_object_urn ⟨ud, .OBJECT, uk, some n, some mkey⟩
            = URN.init ud .MODULE mkey none none := by
          unfold module_urn_from_object_urn
          rw [if_pos rfl]
        rw [hres, urn_init_nonobj (by decide) hd hmk8, hdl, hmkl]
  · intro hrt
    unfold module_urn_from_object_urn
    rw [if_neg hrt]

/-- C5 witness. -/
theorem c5_module_urn_witness :
    module_urn_from_object_urn
      ⟨str "48beda447cfb0c27", .OBJECT, str "0000fa00", some 13, some (str "0000fa00")⟩
    = .ok ⟨str "48beda447cfb0c27", .MODULE, str "0000fa00", none, none⟩ := by
  obtain ⟨mkey, hmk, h⟩ := (c5_module_urn
    ⟨str "48beda447cfb0c27", .OBJECT, str "0000fa00", some 13, some (str "0000fa00")⟩
    (by decide)).1 rfl
  simp only [Option.some.injEq] at hmk
  rw [h]
  rw [hmk]

/-! ## C1: round-trip between public and internal identifiers -/

theorem hexCore_nil_iff {n : Nat} {s : Str} :
    hexCore [] n s = true ↔ s.length = n ∧ ∀ c ∈ s, isHexDigit c = true := by
  rw [hexCore_iff]
  constructor
  · rintro ⟨body, heq, hlen, hall⟩
    rw [List.nil_append] at heq
    subst heq
    exact ⟨hlen, hall⟩
  · intro h
    exact ⟨s, (List.nil_append s).symm, h.1, h.2⟩

theorem matchHex_of_core {pre : Str} {n : Nat} {s : Str} (h : hexCore pre n s = true) :
    matchHexAnchored pre n s = true := by
  unfold matchHexAnchored
  rw [h]
  rfl

theorem guid_init_kind {ud uk tc : Str}
    (hd : matchHexAnchored [] 16 ud = true)
    (htc : matchHexAnchored [] 2 tc = true) (htc2 : tc.length = 2)
    (htchex : ∀ c ∈ tc, isHexDigit c = true) (htcl : pyLower tc = tc)
    (hdl : pyLower ud = ud) (hkl : pyLower uk = uk)
    (hlen : uk.length = 8) (hall : ∀ c ∈ uk, isHexDigit c = true) :
    GUID.init ud tc (tc ++ uk) (str "28ffffffff") none
      = .ok ⟨ud, tc, tc ++ uk, str "28ffffffff", none⟩ := by
  have h10 : matchHexAnchored [] 10 (tc ++ uk) = true := by
    apply matchHex_of_core
    apply hexCore_nil_iff.mpr
    refine ⟨by rw [List.length_append, htc2, hlen], ?_⟩
    intro c hc
    rcases List.mem_append.mp hc with hc | hc
    · exact htchex c hc
    · exact hall c hc
  rw [init_ok_all hd htc h10 (by decide), hdl, htcl, pyLower_append, htcl, hkl]
  rfl

theorem from_guid_kind {ud uk tc : Str} {rt : DWAResourceType}
    (hne : ¬ rt = .OBJECT)
    (hgrt : GUID.get_resource_type ⟨ud, tc, tc ++ uk, str "28ffffffff", none⟩ = .ok rt)
    (htc2 : tc.length = 2) (hlen : uk.length = 8)
    (hd : matchHexAnchored [] 16 ud = true)
    (hk8 : matchHexAnchored [] 8 uk = true)
    (hdl : pyLower ud = ud) (hkl : pyLower uk = uk) :
    URN.from_guid ⟨ud, tc, tc ++ uk, str "28ffffffff", none⟩
      = .ok ⟨ud, rt, uk, none, none⟩ := by
  rw [from_guid_nonobj hgrt hne]
  show URN.init ud rt (lastN 8 (tc ++ uk)) none none = .ok ⟨ud, rt, uk, none, none⟩
  rw [lastN_append2 htc2 hlen, urn_init_nonobj hne hd hk8, hdl, hkl]

/-- C1 (amended): converting a well-formed public identifier with a clean
8-hex-digit key and (for the non-object kinds) unset optional object fields,
as parsing produces, to the internal form and back reproduces it exactly for
modules always, for projects exactly when the key's value is at least
`0x1000`, for folders exactly when it is below `0x1000` (the internal form
erases the project/folder distinction into the parent-key threshold), and for
objects whose stored key equals the module key (as parsing guarantees) when
the object number is below `2^32`.  A project with key value below `0x1000`
instead round-trips to the folder with the same key. -/
theorem c1_roundtrip (u : URN) (hWf : URN.Wf u = true)
    (hclean : hexCore [] 8 u.key = true) :
    (u.resource_type = .MODULE → u.object_no = none → u.module_key = none →
      ∃ g, GUID.from_urn u = .ok g ∧ URN.from_guid g = .ok u)
  ∧ (u.resource_type = .PROJECT → u.object_no = none → u.module_key = none →
      4096 ≤ (hexVal u.key : Int) →
      ∃ g, GUID.from_urn u = .ok g ∧ URN.from_guid g = .ok u)
  ∧ (u.resource_type = .FOLDER → u.object_no = none → u.module_key = none →
      (hexVal u.key : Int) < 4096 →
      ∃ g, GUID.from_urn u = .ok g ∧ URN.from_guid g = .ok u)
  ∧ (u.resource_type = .OBJECT → ∀ n mkey, u.object_no = some n →
      u.module_key = some mkey → u.key = mkey → n < 4294967296 →
      ∃ g, GUID.from_urn u = .ok g ∧ URN.from_guid g = .ok u) := by
  obtain ⟨ud, urt, uk, uno, umk⟩ := u
  have hlen : uk.length = 8 := (hexCore_nil_iff.mp hclean).1
  have hall : ∀ c ∈ uk, isHexDigit c = true := (hexCore_nil_iff.mp hclean).2
  have hk8 : matchHexAnchored [] 8 uk = true := matchHex_of_core hclean
  have hne : uk ≠ [] := by
    intro h
    rw [h] at hlen
    simp at hlen
  refine ⟨?_, ?_, ?_, ?_⟩
  · intro hrt hno hmk
    have hrt2 : urt = .MODULE := hrt
    subst hrt2
    have hno2 : uno = none := hno
    subst hno2
    have hmk2 : umk = none := hmk
    subst hmk2
    unfold URN.Wf at hWf
    simp only [Bool.and_eq_true, beq_iff_eq] at hWf
    obtain ⟨⟨⟨hd, hdl⟩, hkl⟩, -⟩ := hWf
    refine ⟨⟨ud, str "21", str "21" ++ uk, str "28ffffffff", none⟩, ?_, ?_⟩
    · refine (from_urn_module rfl).trans ?_
      exact guid_init_kind hd (by decide) rfl
        (fun c hc => by
          have h2 : c = '2' ∨ c = '1' := by
            have h3 : c ∈ ['2', '1'] := hc
            simpa using h3
          rcases h2 with rfl | rfl <;> rfl)
        rfl hdl hkl hlen hall
    · have hgrt : GUID.get_resource_type
          ⟨ud, str "21", str "21" ++ uk, str "28ffffffff", none⟩ = .ok .MODULE := by
        unfold GUID.get_resource_type
        rw [if_pos rfl]
      exact from_guid_kind (by decide) hgrt rfl hlen hd hk8 hdl hkl
  · intro hrt hno hmk hge
    have hrt2 : urt = .PROJECT := hrt
    subst hrt2
    have hno2 : uno = none := hno
    subst hno2
    have hmk2 : umk = none := hmk
    subst hmk2
    unfold URN.Wf at hWf
    simp only [Bool.and_eq_true, beq_iff_eq] at hWf
    obtain ⟨⟨⟨hd, hdl⟩, hkl⟩, -⟩ := hWf
    have hge2 : (4096 : Int) ≤ (hexVal uk : Int) := hge
    refine ⟨⟨ud, str "1f", str "1f" ++ uk, str "28ffffffff", none⟩, ?_, ?_⟩
    · refine (from_urn_project rfl).trans ?_
      exact guid_init_kind hd (by decide) rfl
        (fun c hc => by
          have h2 : c = '1' ∨ c = 'f' := by
            have h3 : c ∈ ['1', 'f'] := hc
            simpa using h3
          rcases h2 with rfl | rfl <;> rfl)
        rfl hdl hkl hlen hall
    · have hv : pyIntHex (lastN 8 (str "1f" ++ uk)) = some ((hexVal uk : Int)) := by
        rw [@lastN_append2 (str "1f") uk rfl hlen]
        exact pyIntHex_digits hne hall
      have hgrt : GUID.get_resource_type
          ⟨ud, str "1f", str "1f" ++ uk, str "28ffffffff", none⟩ = .ok .PROJECT := by
        rw [@grt_1f_eq ⟨ud, str "1f", str "1f" ++ uk, str "28ffffffff", none⟩ rfl
          ((hexVal uk : Int)) hv, if_pos hge2]
      exact from_guid_kind (by decide) hgrt rfl hlen hd hk8 hdl hkl
  · intro hrt hno hmk hlt
    have hrt2 : urt = .FOLDER := hrt
    subst hrt2
    have hno2 : uno = none := hno
    subst hno2
    have hmk2 : umk = none := hmk
    subst hmk2
    unfold URN.Wf at hWf
    simp only [Bool.and_eq_true, beq_iff_eq] at hWf
    obtain ⟨⟨⟨hd, hdl⟩, hkl⟩, -⟩ := hWf
    have hlt2 : (hexVal uk : Int) < 4096 := hlt
    refine ⟨⟨ud, str "1f", str "1f" ++ uk, str "28ffffffff", none⟩, ?_, ?_⟩
    · refine (from_urn_folder rfl).trans ?_
      exact guid_init_kind hd (by decide) rfl
        (fun c hc => by
          have h2 : c = '1' ∨ c = 'f' := by
            have h3 : c ∈ ['1', 'f'] := hc
            simpa using h3
          rcases h2 with rfl | rfl <;> rfl)
        rfl hdl hkl hlen hall
    · have hv : pyIntHex (lastN 8 (str "1f" ++ uk)) = some ((hexVal uk : Int)) := by
        rw [@lastN_append2 (str "1f") uk rfl hlen]
        exact pyIntHex_digits hne hall
      have hgrt : GUID.get_resource_type
          ⟨ud, str "1f", str "1f" ++ uk, str "28ffffffff", none⟩ = .ok .FOLDER := by
        rw [@grt_1f_eq ⟨ud, str "1f", str "1f" ++ uk, str "28ffffffff", none⟩ rfl
          ((hexVal uk : Int)) hv, if_neg (not_le.mpr hlt2)]
      exact from_guid_kind (by decide) hgrt rfl hlen hd hk8 hdl hkl
  · intro hrt n mkey hno hmk hkm hlt
    have hrt2 : urt = .OBJECT := hrt
    subst hrt2
    have hno2 : uno = some n := hno
    subst hno2
    have hmk2 : umk = some mkey := hmk
    subst hmk2
    have hkm2 : uk = mkey := hkm
    subst hkm2
    unfold URN.Wf at hWf
    simp only [Bool.and_eq_true, beq_iff_eq, decide_eq_true_eq] at hWf
    obtain ⟨⟨⟨hd, hdl⟩, hkl⟩, ⟨hn0, -⟩, -⟩ := hWf
    obtain ⟨hflen, hfchars, hfval⟩ := pyFormatHex8_spec n hn0 hlt
    have hfne : pyFormatHex8 n ≠ [] := by
      intro h
      rw [h] at hflen
      simp at hflen
    refine ⟨⟨ud, str "23", str "21" ++ uk, str "28" ++ pyFormatHex8 n, none⟩, ?_, ?_⟩
    · refine (from_urn_object rfl rfl rfl).trans ?_
      have h10 : matchHexAnchored [] 10 (str "21" ++ uk) = true := by
        apply matchHex_of_core
        apply hexCore_nil_iff.mpr
        refine ⟨by rw [List.length_append, hlen]; rfl, ?_⟩
        intro c hc
        rcases List.mem_append.mp hc with hc | hc
        · have h2 : c = '2' ∨ c = '1' := by
            have h3 : c ∈ ['2', '1'] := hc
            simpa using h3
          rcases h2 with rfl | rfl <;> rfl
        · exact hall c hc
      have h28 : matchHexAnchored (str "28") 8 (str "28" ++ pyFormatHex8 n) = true :=
        matchHex_of_core (hexCore_iff.mpr
          ⟨pyFormatHex8 n, rfl, hflen, fun c hc => (hfchars c hc).1⟩)
      rw [init_ok_all hd (by decide) h10 h28, hdl, pyLower_append, pyLower_append, hkl,
        pyLower_fix (fun c hc => (hfchars c hc).2)]
      rfl
    · have hgrt : GUID.get_resource_type
          ⟨ud, str "23", str "21" ++ uk, str "28" ++ pyFormatHex8 n, none⟩ = .ok .OBJECT :=
        rfl
      have hid : GUID.get_object_id
          ⟨ud, str "23", str "21" ++ uk, str "28" ++ pyFormatHex8 n, none⟩ = some n := by
        unfold GUID.get_object_id
        show pyIntHex ((str "28" ++ pyFormatHex8 n).drop 2) = some n
        rw [show ((str "28" ++ pyFormatHex8 n).drop 2) = pyFormatHex8 n from
          List.drop_left (str "28") (pyFormatHex8 n)]
        rw [pyIntHex_digits hfne (fun c hc => (hfchars c hc).1), hfval,
          Int.toNat_of_nonneg hn0]
      refine (from_guid_object hgrt hid).trans ?_
      show URN.init ud .OBJECT (lastN 8 (str "21" ++ uk)) (some n)
        (some (lastN 8 (str "21" ++ uk))) = .ok ⟨ud, .OBJECT, uk, some n, some uk⟩
      rw [@lastN_append2 (str "21") uk rfl hlen,
        urn_init_object hd (not_lt.mpr hn0) hk8 (match8_ne_empty hk8), hdl, hkl]

/-- C1 counterexample: the well-formed project identifier
`urn:rational::1-48beda447cfb0c27-P-00000fff` (key value `0xfff < 0x1000`)
converts to an internal identifier and back to the FOLDER identifier with the
same key, not to itself. -/
theorem c1_counterexample :
    (URN.from_string (str "urn:rational::1-48beda447cfb0c27-P-00000fff")
      = .ok ⟨str "48beda447cfb0c27", .PROJECT, str "00000fff", none, none⟩)
  ∧ (GUID.from_urn ⟨str "48beda447cfb0c27", .PROJECT, str "00000fff", none, none⟩
      = .ok ⟨str "48beda447cfb0c27", str "1f", str "1f00000fff", str "28ffffffff", none⟩)
  ∧ (URN.from_guid
      ⟨str "48beda447cfb0c27", str "1f", str "1f00000fff", str "28ffffffff", none⟩
      = .ok ⟨str "48beda447cfb0c27", .FOLDER, str "00000fff", none, none⟩)
  ∧ ¬ ((⟨str "48beda447cfb0c27", .FOLDER, str "00000fff", none, none⟩ : URN)
      = ⟨str "48beda447cfb0c27", .PROJECT, str "00000fff", none, none⟩) := by
  refine ⟨by decide, by decide, by decide, by decide⟩

/-- C1 witness: the module identifier `urn:rational::1-48beda447cfb0c27-M-00003c20`
round-trips exactly. -/
theorem c1_roundtrip_witness :
    ∃ g, GUID.from_urn ⟨str "48beda447cfb0c27", .MODULE, str "00003c20", none, none⟩
        = .ok g ∧
      URN.from_guid g
        = .ok ⟨str "48beda447cfb0c27", .MODULE, str "00003c20", none, none⟩ :=
  (c1_roundtrip ⟨str "48beda447cfb0c27", .MODULE, str "00003c20", none, none⟩
    (by decide) (by decide)).1 rfl rfl rfl

/-! ## C2: parse/format round-trip helpers -/

theorem pyLowerChar_ne_nl {c : Char} (h : ¬ c = '\n') : ¬ pyLowerChar c = '\n' := by
  unfold pyLowerChar
  by_cases hc : ('A' ≤ c ∧ c ≤ 'Z')
  · rw [if_pos hc]
    intro he
    have h1 : (65 : Nat) ≤ c.toNat := by
      have h3 := hc.1
      rw [Char.le_def] at h3
      exact h3
    have h2 : c.toNat ≤ 90 := by
      have h3 := hc.2
      rw [Char.le_def] at h3
      exact h3
    have hv : (c.toNat + 32).isValidChar := by
      left
      omega
    have ht : (Char.ofNat (c.toNat + 32)).toNat = c.toNat + 32 := by
      rw [Char.ofNat, dif_pos hv]
      rfl
    have h4 : (Char.ofNat (c.toNat + 32)).toNat = 10 := by rw [he]; rfl
    omega
  · rw [if_neg hc]
    exact h

theorem pyLower_no_nl {s : Str} (h : ∀ c ∈ s, ¬ c = '\n') :
    ∀ c ∈ pyLower s, ¬ c = '\n' := by
  intro c hc
  obtain ⟨d, hd, rfl⟩ := List.mem_map.mp hc
  exact pyLowerChar_ne_nl (h d hd)

theorem pyLower_hex_facts {s : Str} (hall : ∀ c ∈ s, isHexDigit c = true) :
    (∀ c ∈ pyLower s, isHexDigit c = true) ∧ pyLower (pyLower s) = pyLower s ∧
    (pyLower s).length = s.length := by
  refine ⟨?_, ?_, List.length_map s pyLowerChar⟩
  · intro c hc
    obtain ⟨d, hd, rfl⟩ := List.mem_map.mp hc
    exact hex_lower_hex (hall d hd)
  · apply pyLower_fix
    intro c hc
    obtain ⟨d, hd, rfl⟩ := List.mem_map.mp hc
    exact hex_lower_idem (hall d hd)

theorem matchHex_clean {n : Nat} {s : Str} (h : matchHexAnchored [] n s = true)
    (hnl : ∀ c ∈ s, ¬ c = '\n') :
    s.length = n ∧ ∀ c ∈ s, isHexDigit c = true := by
  rcases matchHexAnchored_iff.mp h with ⟨body, heq, hlen, hall⟩ | ⟨body, heq, hlen, hall⟩
  · rw [List.nil_append] at heq
    subst heq
    exact ⟨hlen, hall⟩
  · rw [List.nil_append] at heq
    exfalso
    exact hnl '\n' (by rw [heq]; simp) rfl

theorem dropWhile_head_false {p : Char → Bool} {s : Str} {c : Char}
    (h : (s.dropWhile p).head? = some c) : p c = false := by
  induction s with
  | nil => simp at h
  | cons a t ih =>
    rw [List.dropWhile_cons] at h
    by_cases ha : p a = true
    · rw [if_pos ha] at h
      exact ih h
    · rw [if_neg ha] at h
      simp only [List.head?_cons, Option.some.injEq] at h
      subst h
      simpa using ha

theorem dropWhile_head_no {p : Char → Bool} {s : Str}
    (h : ∀ c, s.head? = some c → p c = false) : s.dropWhile p = s := by
  cases s with
  | nil => rfl
  | cons a t =>
    rw [List.dropWhile_cons, if_neg]
    simp [h a rfl]

theorem stripRight_append_one {p : Char → Bool} {l : Str} {x : Char}
    (hx : p x = true) (hl : ∀ c, l.getLast? = some c → p c = false) :
    stripRight p (l ++ [x]) = l := by
  unfold stripRight
  rw [List.reverse_append]
  show ((x :: l.reverse).dropWhile p).reverse = l
  rw [List.dropWhile_cons, if_pos hx, dropWhile_head_no, List.reverse_reverse]
  intro c hc
  rw [List.head?_reverse] at hc
  exact hl c hc

theorem getLast_opt_cons_ne {a : Char} {l : Str} (h : l ≠ []) :
    (a :: l).getLast? = l.getLast? := by
  cases l with
  | nil => exact absurd rfl h
  | cons b t => rfl

theorem mem_of_getLast_opt {l : Str} {c : Char} (h : l.getLast? = some c) : c ∈ l := by
  induction l with
  | nil => simp at h
  | cons a t ih =>
    cases t with
    | nil =>
      have h2 : a = c := by simpa using h
      subst h2
      simp
    | cons b u =>
      have h2 : (b :: u).getLast? = some c := h
      exact List.mem_cons_of_mem a (ih h2)

theorem stripRight_head {p : Char → Bool} {s : Str} {c : Char}
    (h : (stripRight p s).head? = some c) : s.head? = some c := by
  have hsuf : s.reverse.dropWhile p <:+ s.reverse := List.dropWhile_suffix p
  obtain ⟨t, ht⟩ := hsuf
  have hs : s = stripRight p s ++ t.reverse := by
    have h2 := congrArg List.reverse ht
    rw [List.reverse_append, List.reverse_reverse] at h2
    exact h2.symm
  cases hsr : stripRight p s with
  | nil =>
    rw [hsr] at h
    simp at h
  | cons a r =>
    rw [hsr] at h
    simp only [List.head?_cons, Option.some.injEq] at h
    subst h
    rw [hs, hsr]
    rfl

theorem stripBoth_head {p : Char → Bool} {s : Str} {c : Char}
    (h : (stripBoth p s).head? = some c) : p c = false := by
  unfold stripBoth at h
  exact dropWhile_head_false (stripRight_head h)

theorem stripBoth_mem {p : Char → Bool} {s : Str} :
    ∀ c ∈ stripBoth p s, c ∈ s := by
  intro c hc
  unfold stripBoth stripRight at hc
  have h1 : c ∈ (s.dropWhile p).reverse.dropWhile p := by
    simpa using hc
  have h2 : c ∈ (s.dropWhile p).reverse := (List.dropWhile_suffix p).subset h1
  have h3 : c ∈ s.dropWhile p := by simpa using h2
  exact (List.dropWhile_suffix p).subset h3

theorem intRepr_facts (z : Int) :
    intRepr z ≠ [] ∧ (∀ c ∈ intRepr z, isDecDigit c = true ∨ c = '-') ∧
    (∀ c, (intRepr z).getLast? = some c → isDecDigit c = true) ∧
    (0 ≤ z → ∀ c ∈ intRepr z, isDecDigit c = true) := by
  unfold intRepr
  by_cases hz : z < 0
  · rw [if_pos hz]
    obtain ⟨-, hne, hdig⟩ := natRepr_spec (-z).toNat
    refine ⟨by simp, ?_, ?_, ?_⟩
    · intro c hc
      rcases List.mem_cons.mp hc with rfl | hc
      · exact Or.inr rfl
      · exact Or.inl (hdig c hc)
    · intro c hc
      rw [getLast_opt_cons_ne hne] at hc
      exact hdig c (mem_of_getLast_opt hc)
    · intro h0
      omega
  · rw [if_neg hz]
    obtain ⟨-, hne, hdig⟩ := natRepr_spec z.toNat
    refine ⟨hne, fun c hc => Or.inl (hdig c hc),
      fun c hc => hdig c (mem_of_getLast_opt hc), fun _ c hc => hdig c hc⟩

theorem getLast_opt_append {a b : Str} (h : b ≠ []) :
    (a ++ b).getLast? = b.getLast? := by
  induction a with
  | nil => rfl
  | cons x t ih =>
    rw [List.cons_append, getLast_opt_cons_ne (by simp [h]), ih]

theorem baseline_from_string_inv {v : Str} {b : BaselineKey}
    (h : BaselineKey.from_string v = .ok b) :
    (∃ rest, b = ⟨true, rest, none⟩ ∧ v = 'f' :: 'f' :: rest) ∨
    (∃ bid e, b = ⟨false, bid, some e⟩ ∧
      (∀ c ∈ bid, ¬ c = ',') ∧
      (∀ c, bid.head? = some c → ¬ c = '{' ∧ ¬ c = '}') ∧
      (∀ c ∈ bid, c ∈ v)) := by
  unfold BaselineKey.from_string at h
  by_cases hpre : (str "ff").isPrefixOf v = true
  · rw [if_pos hpre] at h
    have hb : (⟨true, v.drop 2, none⟩ : BaselineKey) = b := by
      simpa using h
    obtain ⟨t, ht⟩ := List.isPrefixOf_iff_prefix.mp hpre
    left
    refine ⟨t, ?_, ?_⟩
    · rw [← hb, ← ht]
      rfl
    · rw [← ht]
      rfl
  · rw [if_neg hpre] at h
    by_cases hhd : v.head? = some '{'
    · rw [if_pos hhd] at h
      cases hsp : splitOnChar ',' (stripBoth (fun c => c = '{' || c = '}') v) with
      | nil =>
        rw [hsp] at h
        exact absurd (h : (Except.error Err.unpackMismatch : Except Err BaselineKey) = .ok b)
          (by simp)
      | cons bid l1 =>
        cases l1 with
        | nil =>
          rw [hsp] at h
          exact absurd (h : (Except.error Err.unpackMismatch : Except Err BaselineKey) = .ok b)
            (by simp)
        | cons ep l2 =>
          cases l2 with
          | cons x l3 =>
            rw [hsp] at h
            exact absurd
              (h : (Except.error Err.unpackMismatch : Except Err BaselineKey) = .ok b)
              (by simp)
          | nil =>
            rw [hsp] at h
            have h2 : (match pyIntDec ep with
              | some e => (Except.ok ⟨false, bid, some e⟩ : Except Err BaselineKey)
              | none => .error .intLiteral) = .ok b := h
            cases he : pyIntDec ep with
            | none =>
              rw [he] at h2
              exact absurd h2 (by simp)
            | some e =>
              rw [he] at h2
              have h3 : (⟨false, bid, some e⟩ : BaselineKey) = b := by
                simpa using h2
              right
              refine ⟨bid, e, h3.symm, ?_, ?_, ?_⟩
              · exact fun c hc => splitOnChar_parts_no_sep bid (by rw [hsp]; simp) c hc
              · intro c hc
                obtain ⟨rest2, hrest2⟩ :=
                  @splitOnChar_head_pre ',' (stripBoth (fun c => c = '{' || c = '}') v)
                rw [hsp] at hrest2
                simp only [List.headD_cons] at hrest2
                have hh : (stripBoth (fun c => c = '{' || c = '}') v).head? = some c := by
                  rw [hrest2]
                  cases bid with
                  | nil => simp at hc
                  | cons a t =>
                    simp only [List.head?_cons, Option.some.injEq] at hc
                    subst hc
                    rfl
                have hp := stripBoth_head hh
                simp only [Bool.or_eq_false_iff, decide_eq_false_iff_not] at hp
                exact hp
              · intro c hc
                exact stripBoth_mem c (splitOnChar_parts_mem bid (by rw [hsp]; simp) c hc)
    · rw [if_neg hhd] at h
      exact absurd h (by simp)

theorem stripBoth_wrap {p : Char → Bool} {l : Str} (hopen : p '{' = true)
    (hclose : p '}' = true)
    (hhead : ∀ c, l.head? = some c → p c = false)
    (hlast : ∀ c, l.getLast? = some c → p c = false) :
    stripBoth p ('{' :: (l ++ ['}'])) = l := by
  unfold stripBoth
  rw [List.dropWhile_cons, if_pos hopen]
  cases l with
  | nil =>
    rw [List.nil_append, List.dropWhile_cons, if_pos hclose]
    rfl
  | cons a t =>
    rw [List.cons_append, List.dropWhile_cons, if_neg (by simp [hhead a rfl])]
    show stripRight p ((a :: t) ++ ['}']) = a :: t
    exact stripRight_append_one hclose hlast

theorem baseline_reparse {v : Str} {b : BaselineKey}
    (h : BaselineKey.from_string v = .ok b) :
    BaselineKey.from_string (BaselineKey.toText b) = .ok b := by
  rcases baseline_from_string_inv h with ⟨rest, rfl, -⟩ | ⟨bid, e, rfl, hnoc, hhead, -⟩
  · show BaselineKey.from_string ('f' :: 'f' :: rest) = .ok ⟨true, rest, none⟩
    unfold BaselineKey.from_string
    rw [if_pos (show List.isPrefixOf (str "ff") ('f' :: 'f' :: rest) = true from
      List.isPrefixOf_iff_prefix.mpr ⟨rest, rfl⟩)]
    rfl
  · have htext : BaselineKey.toText ⟨false, bid, some e⟩
        = '{' :: ((bid ++ ',' :: intRepr e) ++ ['}']) := rfl
    obtain ⟨hine, hichars, hilast, -⟩ := intRepr_facts e
    unfold BaselineKey.from_string
    rw [htext]
    rw [if_neg (fun hff => by
        obtain ⟨t2, ht2⟩ := List.isPrefixOf_iff_prefix.mp hff
        have h2 : List.head? (str "ff" ++ t2) = some 'f' := rfl
        rw [ht2] at h2
        simp at h2),
      if_pos (show ('{' :: ((bid ++ ',' :: intRepr e) ++ ['}']) : Str).head? = some '{'
        from rfl)]
    rw [stripBoth_wrap (by decide) (by decide)
      (fun c hc => by
        cases bid with
        | nil =>
          have hc2 : ',' = c := by simpa using hc
          subst hc2
          decide
        | cons a t =>
          have hc2 : a = c := by simpa using hc
          subst hc2
          obtain ⟨h1, h2⟩ := hhead a rfl
          simp [h1, h2])
      (fun c hc => by
        rw [getLast_opt_append (by simp), getLast_opt_cons_ne hine] at hc
        have hd := hilast c hc
        have hne1 := (decChar_facts c (mem_of_isDecDigit hd)).2.2.2.2.2.1
        have hne2 := (decChar_facts c (mem_of_isDecDigit hd)).2.2.2.2.2.2.1
        simp [hne1, hne2])]
    rw [splitOnChar_append hnoc,
      splitOnChar_no_sep (fun c hc => by
        rcases hichars c hc with hd | rfl
        · exact (decChar_facts c (mem_of_isDecDigit hd)).2.2.2.1
        · decide)]
    show (match pyIntDec (intRepr e) with
      | some e2 => (Except.ok ⟨false, bid, some e2⟩ : Except Err BaselineKey)
      | none => .error .intLiteral) = .ok ⟨false, bid, some e⟩
    rw [pyIntDec_intRepr e]

theorem baseline_toText_no_colon {v : Str} {b : BaselineKey}
    (h : BaselineKey.from_string v = .ok b) (hv : ∀ c ∈ v, ¬ c = ':') :
    ∀ c ∈ BaselineKey.toText b, ¬ c = ':' := by
  rcases baseline_from_string_inv h with ⟨rest, rfl, hveq⟩ | ⟨bid, e, rfl, -, -, hmem⟩
  · intro c hc
    have hc2 : c ∈ ('f' :: 'f' :: rest : Str) := hc
    apply hv c
    rw [hveq]
    exact hc2
  · intro c hc
    obtain ⟨-, hichars, -, -⟩ := intRepr_facts e
    have hc2 : c ∈ ('{' :: ((bid ++ ',' :: intRepr e) ++ ['}'])) := hc
    rcases List.mem_cons.mp hc2 with rfl | hc3
    · decide
    rcases List.mem_append.mp hc3 with hc4 | hc5
    · rcases List.mem_append.mp hc4 with hb | hcm
      · exact hv c (hmem c hb)
      · rcases List.mem_cons.mp hcm with rfl | hci
        · decide
        · rcases hichars c hci with hd | rfl
          · exact (decChar_facts c (mem_of_isDecDigit hd)).2.2.2.2.1
          · decide
    · have hc9 : c = '}' := by simpa using hc5
      subst hc9
      decide

theorem matchHex_mem {pre : Str} {n : Nat} {s : Str} (h : matchHexAnchored pre n s = true) :
    ∀ c ∈ s, c ∈ pre ∨ isHexDigit c = true ∨ c = '\n' := by
  rcases matchHexAnchored_iff.mp h with ⟨body, heq, -, hall⟩ | ⟨body, heq, -, hall⟩ <;>
    subst heq <;> intro c hc
  · rcases List.mem_append.mp hc with hc | hc
    · exact Or.inl hc
    · exact Or.inr (Or.inl (hall c hc))
  · rcases List.mem_append.mp hc with hc | hc
    · rcases List.mem_append.mp hc with hc | hc
      · exact Or.inl hc
      · exact Or.inr (Or.inl (hall c hc))
    · exact Or.inr (Or.inr (by simpa using hc))

theorem guid_from_string_inv {s : Str} {g : GUID}
    (h : GUID.from_string s = .ok g) :
    ∃ a d t p o, (str "AB:").isPrefixOf s = true ∧
      ((splitOnChar ':' s = [a, d, t, p, o] ∧ GUID.init d t p o none = .ok g) ∨
       (∃ bk b, splitOnChar ':' s = [a, d, t, p, o, bk] ∧
         BaselineKey.from_string bk = .ok b ∧ GUID.init d t p o (some b) = .ok g)) := by
  unfold GUID.from_string at h
  by_cases hpre : (str "AB:").isPrefixOf s = true
  · rw [if_pos hpre] at h
    cases hsp : splitOnChar ':' s with
    | nil =>
      rw [hsp] at h
      exact absurd (h : (Except.error Err.invalidGuidFormat : Except Err GUID) = .ok g)
        (by simp)
    | cons a l1 =>
      cases l1 with
      | nil =>
        rw [hsp] at h
        exact absurd (h : (Except.error Err.invalidGuidFormat : Except Err GUID) = .ok g)
          (by simp)
      | cons d l2 =>
        cases l2 with
        | nil =>
          rw [hsp] at h
          exact absurd (h : (Except.error Err.invalidGuidFormat : Except Err GUID) = .ok g)
            (by simp)
        | cons t l3 =>
          cases l3 with
          | nil =>
            rw [hsp] at h
            exact absurd (h : (Except.error Err.invalidGuidFormat : Except Err GUID) = .ok g)
              (by simp)
          | cons p l4 =>
            cases l4 with
            | nil =>
              rw [hsp] at h
              exact absurd
                (h : (Except.error Err.invalidGuidFormat : Except Err GUID) = .ok g)
                (by simp)
            | cons o l5 =>
              cases l5 with
              | nil =>
                rw [hsp] at h
                exact ⟨a, d, t, p, o, hpre, Or.inl ⟨rfl, h⟩⟩
              | cons bk l6 =>
                cases l6 with
                | nil =>
                  rw [hsp] at h
                  have h2 : (match BaselineKey.from_string bk with
                    | .error e => (Except.error e : Except Err GUID)
                    | .ok b => GUID.init d t p o (some b)) = .ok g := h
                  cases hbk : BaselineKey.from_string bk with
                  | error e =>
                    rw [hbk] at h2
                    exact absurd h2 (by simp)
                  | ok b =>
                    rw [hbk] at h2
                    exact ⟨a, d, t, p, o, hpre, Or.inr ⟨bk, b, rfl, hbk, h2⟩⟩
                | cons x l7 =>
                  rw [hsp] at h
                  exact absurd
                    (h : (Except.error Err.invalidGuidFormat : Except Err GUID) = .ok g)
                    (by simp)
  · rw [if_neg hpre] at h
    exact absurd h (by simp)

theorem guid_reparse_core {d t p o : Str} {bk : Option BaselineKey}
    (hd : matchHexAnchored [] 16 d = true) (hdl : pyLower d = d)
    (ht2 : matchHexAnchored [] 2 t = true) (htl : pyLower t = t)
    (hp : matchHexAnchored [] 10 p = true) (hpl : pyLower p = p)
    (ho : matchHexAnchored (str "28") 8 o = true) (hol : pyLower o = o)
    (hbk : ∀ b, bk = some b →
      BaselineKey.from_string (BaselineKey.toText b) = .ok b ∧
      (∀ c ∈ BaselineKey.toText b, ¬ c = ':')) :
    GUID.from_string (GUID.toText ⟨d, t, p, o, bk⟩) = .ok ⟨d, t, p, o, bk⟩ := by
  have hdc : ∀ c ∈ d, ¬ c = ':' := by
    intro c hc
    rcases matchHex_mem hd c hc with h0 | hx | rfl
    · simp at h0
    · exact hex_ne_colon hx
    · decide
  have htc : ∀ c ∈ t, ¬ c = ':' := by
    intro c hc
    rcases matchHex_mem ht2 c hc with h0 | hx | rfl
    · simp at h0
    · exact hex_ne_colon hx
    · decide
  have hpc : ∀ c ∈ p, ¬ c = ':' := by
    intro c hc
    rcases matchHex_mem hp c hc with h0 | hx | rfl
    · simp at h0
    · exact hex_ne_colon hx
    · decide
  have hoc : ∀ c ∈ o, ¬ c = ':' := by
    intro c hc
    rcases matchHex_mem ho c hc with h0 | hx | rfl
    · have h1 : c ∈ (['2', '8'] : Str) := h0
      rcases List.mem_cons.mp h1 with rfl | h2
      · decide
      · have h3 : c = '8' := by simpa using h2
        subst h3
        decide
    · exact hex_ne_colon hx
    · decide
  cases bk with
  | none =>
    have htext : GUID.toText ⟨d, t, p, o, none⟩
        = str "AB" ++ ':' :: (d ++ ':' :: (t ++ ':' :: (p ++ ':' :: o))) := by
      show 'A' :: 'B' :: ':' :: ((((d ++ ':' :: t) ++ ':' :: p) ++ ':' :: o) ++ [])
        = 'A' :: 'B' :: ':' :: (d ++ ':' :: (t ++ ':' :: (p ++ ':' :: o)))
      rw [List.append_nil]
      simp only [List.append_assoc, List.cons_append]
    unfold GUID.from_string
    rw [htext]
    rw [if_pos (show (str "AB:").isPrefixOf
        (str "AB" ++ ':' :: (d ++ ':' :: (t ++ ':' :: (p ++ ':' :: o)))) = true from
      List.isPrefixOf_iff_prefix.mpr ⟨_, rfl⟩)]
    have h1 : splitOnChar ':' (str "AB" ++ ':' :: (d ++ ':' :: (t ++ ':' :: (p ++ ':' :: o))))
        = str "AB" :: splitOnChar ':' (d ++ ':' :: (t ++ ':' :: (p ++ ':' :: o))) :=
      splitOnChar_append (by decide)
    have h2 : splitOnChar ':' (d ++ ':' :: (t ++ ':' :: (p ++ ':' :: o)))
        = d :: splitOnChar ':' (t ++ ':' :: (p ++ ':' :: o)) :=
      splitOnChar_append hdc
    have h3 : splitOnChar ':' (t ++ ':' :: (p ++ ':' :: o))
        = t :: splitOnChar ':' (p ++ ':' :: o) :=
      splitOnChar_append htc
    have h4 : splitOnChar ':' (p ++ ':' :: o)
        = p :: splitOnChar ':' o :=
      splitOnChar_append hpc
    have h5 : splitOnChar ':' o = [o] := splitOnChar_no_sep hoc
    rw [h1, h2, h3, h4, h5]
    show GUID.init d t p o none = .ok ⟨d, t, p, o, none⟩
    rw [init_ok_all hd ht2 hp ho, hdl, htl, hpl, hol]
  | some b =>
    obtain ⟨hrb, hbc⟩ := hbk b rfl
    have htext : GUID.toText ⟨d, t, p, o, some b⟩
        = str "AB" ++ ':' ::
          (d ++ ':' :: (t ++ ':' :: (p ++ ':' :: (o ++ ':' :: BaselineKey.toText b)))) := by
      show 'A' :: 'B' :: ':' ::
          ((((d ++ ':' :: t) ++ ':' :: p) ++ ':' :: o) ++ ':' :: BaselineKey.toText b)
        = 'A' :: 'B' :: ':' ::
          (d ++ ':' :: (t ++ ':' :: (p ++ ':' :: (o ++ ':' :: BaselineKey.toText b))))
      simp only [List.append_assoc, List.cons_append]
    unfold GUID.from_string
    rw [htext]
    rw [if_pos (show (str "AB:").isPrefixOf (str "AB" ++ ':' ::
        (d ++ ':' :: (t ++ ':' :: (p ++ ':' :: (o ++ ':' :: BaselineKey.toText b))))) = true
      from List.isPrefixOf_iff_prefix.mpr ⟨_, rfl⟩)]
    have h1 : splitOnChar ':' (str "AB" ++ ':' ::
          (d ++ ':' :: (t ++ ':' :: (p ++ ':' :: (o ++ ':' :: BaselineKey.toText b)))))
        = str "AB" :: splitOnChar ':'
            (d ++ ':' :: (t ++ ':' :: (p ++ ':' :: (o ++ ':' :: BaselineKey.toText b)))) :=
      splitOnChar_append (by decide)
    have h2 : splitOnChar ':'
          (d ++ ':' :: (t ++ ':' :: (p ++ ':' :: (o ++ ':' :: BaselineKey.toText b))))
        = d :: splitOnChar ':' (t ++ ':' :: (p ++ ':' :: (o ++ ':' :: BaselineKey.toText b))) :=
      splitOnChar_append hdc
    have h3 : splitOnChar ':' (t ++ ':' :: (p ++ ':' :: (o ++ ':' :: BaselineKey.toText b)))
        = t :: splitOnChar ':' (p ++ ':' :: (o ++ ':' :: BaselineKey.toText b)) :=
      splitOnChar_append htc
    have h4 : splitOnChar ':' (p ++ ':' :: (o ++ ':' :: BaselineKey.toText b))
        = p :: splitOnChar ':' (o ++ ':' :: BaselineKey.toText b) :=
      splitOnChar_append hpc
    have h5 : splitOnChar ':' (o ++ ':' :: BaselineKey.toText b)
        = o :: splitOnChar ':' (BaselineKey.toText b) :=
      splitOnChar_append hoc
    have h6 : splitOnChar ':' (BaselineKey.toText b) = [BaselineKey.toText b] :=
      splitOnChar_no_sep hbc
    rw [h1, h2, h3, h4, h5, h6]
    show (match BaselineKey.from_string (BaselineKey.toText b) with
      | .error e => (Except.error e : Except Err GUID)
      | .ok b2 => GUID.init d t p o (some b2)) = .ok ⟨d, t, p, o, some b⟩
    rw [hrb]
    show GUID.init d t p o (some b) = .ok ⟨d, t, p, o, some b⟩
    rw [init_ok_all hd ht2 hp ho, hdl, htl, hpl, hol]

theorem guid_reparse {s : Str} {g : GUID}
    (h : GUID.from_string s = .ok g) :
    GUID.from_string (GUID.toText g) = .ok g := by
  obtain ⟨a, d, t, p, o, -, hcase⟩ := guid_from_string_inv h
  rcases hcase with ⟨hsp, hinit⟩ | ⟨bk, b, hsp, hbkparse, hinit⟩
  · obtain ⟨h1, h2, h3, h4, rfl⟩ := init_ok_iff.mp hinit
    obtain ⟨hd', hdl'⟩ := matchHexAnchored_lower rfl h1
    obtain ⟨ht', htl'⟩ := matchHexAnchored_lower rfl h2
    obtain ⟨hp', hpl'⟩ := matchHexAnchored_lower rfl h3
    obtain ⟨ho', hol'⟩ := matchHexAnchored_lower (by decide) h4
    exact guid_reparse_core hd' hdl' ht' htl' hp' hpl' ho' hol'
      (fun b2 hb => by simp at hb)
  · obtain ⟨h1, h2, h3, h4, rfl⟩ := init_ok_iff.mp hinit
    obtain ⟨hd', hdl'⟩ := matchHexAnchored_lower rfl h1
    obtain ⟨ht', htl'⟩ := matchHexAnchored_lower rfl h2
    obtain ⟨hp', hpl'⟩ := matchHexAnchored_lower rfl h3
    obtain ⟨ho', hol'⟩ := matchHexAnchored_lower (by decide) h4
    have hbkcolon : ∀ c ∈ bk, ¬ c = ':' :=
      fun c hc => splitOnChar_parts_no_sep bk (by rw [hsp]; simp) c hc
    exact guid_reparse_core hd' hdl' ht' htl' hp' hpl' ho' hol'
      (fun b2 hb => by
        have hb2 : b2 = b := by simpa using hb.symm
        subst hb2
        exact ⟨baseline_reparse hbkparse, baseline_toText_no_colon hbkparse hbkcolon⟩)

theorem urnGroups_eq {d r : Str} {k : Char} (hd16 : d.length = 16)
    (hdhex : ∀ c ∈ d, isHexDigit c = true)
    (hk : k = 'P' ∨ k = 'F' ∨ k = 'M' ∨ k = 'O') (hrne : r ≠ [])
    (hrnl : ∀ c ∈ r, ¬ c = '\n') :
    urnGroups (d ++ '-' :: k :: '-' :: r) = some (d, k, r) := by
  have htake : (d ++ '-' :: k :: '-' :: r).take 16 = d := by
    rw [← hd16, List.take_left]
  have hdrop : (d ++ '-' :: k :: '-' :: r).drop 16 = '-' :: k :: '-' :: r := by
    rw [← hd16, List.drop_left]
  simp only [urnGroups]
  rw [htake, hdrop]
  rw [if_pos ⟨hd16, List.all_eq_true.mpr (fun c hc => by simpa using hdhex c hc)⟩]
  show (if (k = 'P' ∨ k = 'F' ∨ k = 'M' ∨ k = 'O') ∧ r ≠ [] ∧
      (r.all fun c => !(c == '\n')) = true
    then some (d, k, r) else none) = some (d, k, r)
  rw [if_pos ⟨hk, hrne, List.all_eq_true.mpr (fun c hc => by simpa using hrnl c hc)⟩]

theorem urnCoreMatch_eq {d r : Str} {k : Char} (hd16 : d.length = 16)
    (hdhex : ∀ c ∈ d, isHexDigit c = true)
    (hk : k = 'P' ∨ k = 'F' ∨ k = 'M' ∨ k = 'O') (hrne : r ≠ [])
    (hrnl : ∀ c ∈ r, ¬ c = '\n') :
    urnCoreMatch (str "urn:rational::1-" ++ (d ++ '-' :: k :: '-' :: r))
      = some (d, k, r) := by
  unfold urnCoreMatch
  rw [if_pos (show (str "urn:rational::1-").isPrefixOf
      (str "urn:rational::1-" ++ (d ++ '-' :: k :: '-' :: r)) = true from
    List.isPrefixOf_iff_prefix.mpr ⟨_, rfl⟩)]
  rw [show (str "urn:rational::1-" ++ (d ++ '-' :: k :: '-' :: r)).drop 16
      = d ++ '-' :: k :: '-' :: r from
    List.drop_left (str "urn:rational::1-") (d ++ '-' :: k :: '-' :: r)]
  exact urnGroups_eq hd16 hdhex hk hrne hrnl

theorem urnReMatch_eq {d r : Str} {k : Char} (hd16 : d.length = 16)
    (hdhex : ∀ c ∈ d, isHexDigit c = true)
    (hk : k = 'P' ∨ k = 'F' ∨ k = 'M' ∨ k = 'O') (hrne : r ≠ [])
    (hrnl : ∀ c ∈ r, ¬ c = '\n') :
    urnReMatch (str "urn:rational::1-" ++ (d ++ '-' :: k :: '-' :: r))
      = some (d, k, r) := by
  have hg : (str "urn:rational::1-" ++ (d ++ '-' :: k :: '-' :: r)).getLast?
      = r.getLast? := by
    rw [getLast_opt_append (by simp), getLast_opt_append (by simp),
      getLast_opt_cons_ne (by simp), getLast_opt_cons_ne (by simp),
      getLast_opt_cons_ne hrne]
  have hlast : ¬ ((str "urn:rational::1-" ++ (d ++ '-' :: k :: '-' :: r)).getLast?
      = some '\n') := by
    intro heq
    rw [hg, List.getLast?_eq_getLast r hrne] at heq
    have h2 : r.getLast hrne = '\n' := by simpa using heq
    exact hrnl (r.getLast hrne) (mem_of_getLast_opt (List.getLast?_eq_getLast r hrne)) h2
  unfold urnReMatch
  rw [if_neg hlast]
  exact urnCoreMatch_eq hd16 hdhex hk hrne hrnl

theorem urnGroups_inv {s d : Str} {k : Char} {r : Str}
    (h : urnGroups s = some (d, k, r)) :
    d.length = 16 ∧ (∀ c ∈ d, isHexDigit c = true) ∧
    (k = 'P' ∨ k = 'F' ∨ k = 'M' ∨ k = 'O') ∧ r ≠ [] ∧ (∀ c ∈ r, ¬ c = '\n') := by
  simp only [urnGroups] at h
  split at h
  · split at h
    · split at h
      · rename_i hcond x2 k2 rest2 heq hguard
        rw [Option.some.injEq, Prod.mk.injEq, Prod.mk.injEq] at h
        obtain ⟨h3, h4, h5⟩ := h
        subst h3
        subst h4
        subst h5
        refine ⟨hcond.1, ?_, hguard.1, hguard.2.1, ?_⟩
        · intro c hc
          have h6 := List.all_eq_true.mp hcond.2 c hc
          simpa using h6
        · intro c hc
          have h6 := List.all_eq_true.mp hguard.2.2 c hc
          simpa using h6
      · exact absurd h (by simp)
    · exact absurd h (by simp)
  · exact absurd h (by simp)

theorem urnCoreMatch_inv {v d : Str} {k : Char} {r : Str}
    (h : urnCoreMatch v = some (d, k, r)) :
    d.length = 16 ∧ (∀ c ∈ d, isHexDigit c = true) ∧
    (k = 'P' ∨ k = 'F' ∨ k = 'M' ∨ k = 'O') ∧ r ≠ [] ∧ (∀ c ∈ r, ¬ c = '\n') := by
  unfold urnCoreMatch at h
  split at h
  · exact urnGroups_inv h
  · split at h
    · exact urnGroups_inv h
    · exact absurd h (by simp)

theorem urnReMatch_inv {v d : Str} {k : Char} {r : Str}
    (h : urnReMatch v = some (d, k, r)) :
    d.length = 16 ∧ (∀ c ∈ d, isHexDigit c = true) ∧
    (k = 'P' ∨ k = 'F' ∨ k = 'M' ∨ k = 'O') ∧ r ≠ [] ∧ (∀ c ∈ r, ¬ c = '\n') := by
  unfold urnReMatch at h
  split at h
  · exact urnCoreMatch_inv h
  · exact urnCoreMatch_inv h

theorem urn_from_string_some {value dbid0 : Str} {kind : Char} {rest : Str}
    (hm : urnReMatch value = some (dbid0, kind, rest)) :
    URN.from_string value =
      (if kind = 'O' then
        match splitOnChar '-' rest with
        | [p0, p1] =>
          match pyIntDec p0 with
          | none => .error .intLiteral
          | some n => URN.init (pyLower dbid0) .OBJECT (pyLower p1) (some n)
              (some (pyLower p1))
        | _ => .error .invalidObjectUrn
      else
        if rest.length = 8 ∧ rest.all isHexDigit then
          match kindOfLetter kind with
          | some rt => URN.init (pyLower dbid0) rt rest none none
          | none => .error .invalidDwaUrn
        else .error .invalidKeyForKind) := by
  unfold URN.from_string
  rw [hm]

theorem urn_init_object_inv {dbid key mkey : Str} {n : Int} {u : URN}
    (h : URN.init dbid .OBJECT key (some n) (some mkey) = .ok u) :
    matchHexAnchored [] 16 dbid = true ∧ ¬ n < 0 ∧ matchHexAnchored [] 8 mkey = true ∧
      u = ⟨pyLower dbid, .OBJECT, pyLower key, some n,
           if mkey.isEmpty then none else some (pyLower mkey)⟩ := by
  unfold URN.init at h
  by_cases h1 : matchHexAnchored [] 16 dbid = true
  · rw [if_neg (by simp [h1]), if_pos rfl] at h
    have h2 : (if n < 0 then (Except.error Err.invalidObjectNumber : Except Err URN)
      else if ¬ matchHexAnchored [] 8 mkey = true then .error .invalidModuleKeyForObjectUrn
      else .ok ⟨pyLower dbid, .OBJECT, pyLower key, some n,
        if mkey.isEmpty = true then none else some (pyLower mkey)⟩) = .ok u := h
    by_cases hn : n < 0
    · rw [if_pos hn] at h2
      exact absurd h2 (by simp)
    · rw [if_neg hn] at h2
      by_cases hmk : matchHexAnchored [] 8 mkey = true
      · rw [if_neg (by simp [hmk])] at h2
        refine ⟨h1, hn, hmk, ?_⟩
        have h3 := h2
        simp only [Except.ok.injEq] at h3
        exact h3.symm
      · rw [if_pos (by simp [hmk])] at h2
        exact absurd h2 (by simp)
  · rw [if_pos h1] at h
    exact absurd h (by simp)

theorem urn_init_nonobj_inv {dbid key : Str} {rt : DWAResourceType} {u : URN}
    (hrt : ¬ rt = .OBJECT)
    (h : URN.init dbid rt key none none = .ok u) :
    matchHexAnchored [] 16 dbid = true ∧ matchHexAnchored [] 8 key = true ∧
      u = ⟨pyLower dbid, rt, pyLower key, none, none⟩ := by
  unfold URN.init at h
  by_cases h1 : matchHexAnchored [] 16 dbid = true
  · rw [if_neg (by simp [h1]), if_neg hrt] at h
    by_cases h2 : matchHexAnchored [] 8 key = true
    · rw [if_neg (by simp [h2])] at h
      refine ⟨h1, h2, ?_⟩
      have h3 := h
      simp only [Except.ok.injEq] at h3
      exact h3.symm
    · rw [if_pos (by simp [h2])] at h
      exact absurd h (by simp)
  · rw [if_pos h1] at h
    exact absurd h (by simp)

theorem urn_from_string_inv {s : Str} {u : URN} (h : URN.from_string s = .ok u) :
    (u.dbid.length = 16 ∧ (∀ c ∈ u.dbid, isHexDigit c = true) ∧ pyLower u.dbid = u.dbid) ∧
    ((¬ u.resource_type = .OBJECT ∧ u.object_no = none ∧ u.module_key = none ∧
       u.key.length = 8 ∧ (∀ c ∈ u.key, isHexDigit c = true) ∧ pyLower u.key = u.key) ∨
     (∃ n, u.resource_type = .OBJECT ∧ 0 ≤ n ∧ u.object_no = some n ∧
       u.module_key = some u.key ∧ u.key.length = 8 ∧
       (∀ c ∈ u.key, isHexDigit c = true) ∧ pyLower u.key = u.key)) := by
  cases hm : urnReMatch s with
  | none =>
    unfold URN.from_string at h
    rw [hm] at h
    exact absurd h (by simp)
  | some trip =>
    obtain ⟨dbid0, kind, rest⟩ := trip
    obtain ⟨hd16, hdhex, hkind, hrne, hrnl⟩ := urnReMatch_inv hm
    rw [urn_from_string_some hm] at h
    obtain ⟨hd1hex, hd1idem, hd1len⟩ := pyLower_hex_facts hdhex
    obtain ⟨hd2hex, hd2idem, hd2len⟩ := pyLower_hex_facts hd1hex
    by_cases hk : kind = 'O'
    · rw [if_pos hk] at h
      cases hsp : splitOnChar '-' rest with
      | nil =>
        rw [hsp] at h
        exact absurd (h : (Except.error Err.invalidObjectUrn : Except Err URN) = .ok u)
          (by simp)
      | cons p0 l1 =>
        cases l1 with
        | nil =>
          rw [hsp] at h
          exact absurd (h : (Except.error Err.invalidObjectUrn : Except Err URN) = .ok u)
            (by simp)
        | cons p1 l2 =>
          cases l2 with
          | cons x l3 =>
            rw [hsp] at h
            exact absurd (h : (Except.error Err.invalidObjectUrn : Except Err URN) = .ok u)
              (by simp)
          | nil =>
            rw [hsp] at h
            have h2 : (match pyIntDec p0 with
              | none => (Except.error Err.intLiteral : Except Err URN)
              | some n => URN.init (pyLower dbid0) .OBJECT (pyLower p1) (some n)
                  (some (pyLower p1))) = .ok u := h
            cases hn : pyIntDec p0 with
            | none =>
              rw [hn] at h2
              exact absurd h2 (by simp)
            | some n =>
              rw [hn] at h2
              obtain ⟨hd0, hnn, hmk8, hu⟩ := urn_init_object_inv h2
              have hp1nl : ∀ c ∈ p1, ¬ c = '\n' := by
                intro c hc
                exact fun heq => hrnl c
                  (splitOnChar_parts_mem p1 (by rw [hsp]; simp) c hc) heq
              have hlp1nl : ∀ c ∈ pyLower p1, ¬ c = '\n' := pyLower_no_nl hp1nl
              obtain ⟨hp1len, hp1hex⟩ := matchHex_clean hmk8 hlp1nl
              obtain ⟨hm2hex, hm2idem, hm2len⟩ := pyLower_hex_facts hp1hex
              have hne : (pyLower p1).isEmpty = false := match8_ne_empty hmk8
              rw [if_neg (show ¬ ((pyLower p1).isEmpty = true) by simp [hne])] at hu
              subst hu
              refine ⟨⟨?_, hd2hex, hd2idem⟩, Or.inr ⟨n, rfl, Int.not_lt.mp hnn, rfl, rfl,
                ?_, hm2hex, hm2idem⟩⟩
              · rw [hd2len, hd1len, hd16]
              · rw [hm2len, hp1len]
    · rw [if_neg hk] at h
      by_cases hlen : (rest.length = 8 ∧ rest.all isHexDigit)
      · rw [if_pos hlen] at h
        cases hko : kindOfLetter kind with
        | none =>
          rw [hko] at h
          exact absurd h (by simp)
        | some rt =>
          rw [hko] at h
          have hresthex : ∀ c ∈ rest, isHexDigit c = true := by
            intro c hc
            have h6 := List.all_eq_true.mp hlen.2 c hc
            simpa using h6
          have hrtne : ¬ rt = .OBJECT := by
            rcases hkind with rfl | rfl | rfl | rfl
            · rw [show kindOfLetter 'P' = some DWAResourceType.PROJECT from by decide] at hko
              have h7 := Option.some.inj hko
              subst h7
              decide
            · rw [show kindOfLetter 'F' = some DWAResourceType.FOLDER from by decide] at hko
              have h7 := Option.some.inj hko
              subst h7
              decide
            · rw [show kindOfLetter 'M' = some DWAResourceType.MODULE from by decide] at hko
              have h7 := Option.some.inj hko
              subst h7
              decide
            · exact absurd rfl hk
          obtain ⟨hd0, hk8, hu⟩ := urn_init_nonobj_inv hrtne h
          subst hu
          obtain ⟨hr2hex, hr2idem, hr2len⟩ := pyLower_hex_facts hresthex
          refine ⟨⟨?_, hd2hex, hd2idem⟩, Or.inl ⟨hrtne, rfl, rfl, ?_, hr2hex, hr2idem⟩⟩
          · rw [hd2len, hd1len, hd16]
          · rw [hr2len, hlen.1]
      · rw [if_neg hlen] at h
        exact absurd h (by simp)

theorem urn_reparse_nonobj_core (k : Char) {ud uk : Str} {rt : DWAResourceType}
    (htext : URN.toText ⟨ud, rt, uk, none, none⟩
      = str "urn:rational::1-" ++ (ud ++ '-' :: k :: '-' :: uk))
    (hrtk : kindOfLetter k = some rt) (hkO : ¬ k = 'O')
    (hkpfmo : k = 'P' ∨ k = 'F' ∨ k = 'M' ∨ k = 'O') (hrtne : ¬ rt = .OBJECT)
    (hdlen : ud.length = 16) (hdhex : ∀ c ∈ ud, isHexDigit c = true)
    (hdlow : pyLower ud = ud)
    (hklen : uk.length = 8) (hkhex : ∀ c ∈ uk, isHexDigit c = true)
    (hklow : pyLower uk = uk) :
    URN.from_string (URN.toText ⟨ud, rt, uk, none, none⟩)
      = .ok ⟨ud, rt, uk, none, none⟩ := by
  have hukne : uk ≠ [] := by
    intro h0
    rw [h0] at hklen
    simp at hklen
  have hknl : ∀ c ∈ uk, ¬ c = '\n' := fun c hc => hex_ne_nl (hkhex c hc)
  have hd16m : matchHexAnchored [] 16 ud = true :=
    matchHex_of_core (hexCore_nil_iff.mpr ⟨hdlen, hdhex⟩)
  have hk8m : matchHexAnchored [] 8 uk = true :=
    matchHex_of_core (hexCore_nil_iff.mpr ⟨hklen, hkhex⟩)
  have hm := urnReMatch_eq hdlen hdhex hkpfmo hukne hknl
  rw [htext, urn_from_string_some hm, if_neg hkO,
    if_pos ⟨hklen, List.all_eq_true.mpr (fun c hc => by simpa using hkhex c hc)⟩, hrtk]
  show URN.init (pyLower ud) rt uk none none = .ok ⟨ud, rt, uk, none, none⟩
  rw [hdlow, urn_init_nonobj hrtne hd16m hk8m, hdlow, hklow]

theorem urn_reparse {s : Str} {u : URN} (h : URN.from_string s = .ok u) :
    URN.from_string (URN.toText u) = .ok u := by
  obtain ⟨⟨hdlen, hdhex, hdlow⟩, hcase⟩ := urn_from_string_inv h
  obtain ⟨ud, urt, uk, uno, umk⟩ := u
  have hdlen2 : ud.length = 16 := hdlen
  have hdhex2 : ∀ c ∈ ud, isHexDigit c = true := hdhex
  have hdlow2 : pyLower ud = ud := hdlow
  rcases hcase with ⟨hne, hno, hmk, hklen, hkhex, hklow⟩ |
    ⟨n, hrt, hn0, hno, hmk, hklen, hkhex, hklow⟩
  · have hne2 : ¬ urt = .OBJECT := hne
    have hno2 : uno = none := hno
    subst hno2
    have hmk2 : umk = none := hmk
    subst hmk2
    have hklen2 : uk.length = 8 := hklen
    have hkhex2 : ∀ c ∈ uk, isHexDigit c = true := hkhex
    have hklow2 : pyLower uk = uk := hklow
    cases urt with
    | OBJECT => exact absurd rfl hne2
    | MODULE =>
      exact urn_reparse_nonobj_core 'M' rfl (by decide) (by decide) (by decide) (by decide)
        hdlen2 hdhex2 hdlow2 hklen2 hkhex2 hklow2
    | FOLDER =>
      exact urn_reparse_nonobj_core 'F' rfl (by decide) (by decide) (by decide) (by decide)
        hdlen2 hdhex2 hdlow2 hklen2 hkhex2 hklow2
    | PROJECT =>
      exact urn_reparse_nonobj_core 'P' rfl (by decide) (by decide) (by decide) (by decide)
        hdlen2 hdhex2 hdlow2 hklen2 hkhex2 hklow2
  · have hrt2 : urt = .OBJECT := hrt
    subst hrt2
    have hno2 : uno = some n := hno
    subst hno2
    have hmk2 : umk = some uk := hmk
    subst hmk2
    have hklen2 : uk.length = 8 := hklen
    have hkhex2 : ∀ c ∈ uk, isHexDigit c = true := hkhex
    have hklow2 : pyLower uk = uk := hklow
    have hukne : uk ≠ [] := by
      intro h0
      rw [h0] at hklen2
      simp at hklen2
    have hd16m : matchHexAnchored [] 16 ud = true :=
      matchHex_of_core (hexCore_nil_iff.mpr ⟨hdlen2, hdhex2⟩)
    have hk8m : matchHexAnchored [] 8 uk = true :=
      matchHex_of_core (hexCore_nil_iff.mpr ⟨hklen2, hkhex2⟩)
    have hirepr : intRepr n = natRepr n.toNat := if_neg (Int.not_lt.mpr hn0)
    obtain ⟨-, hdig⟩ := (natRepr_spec n.toNat).2
    have hrneB : intRepr n ++ '-' :: uk ≠ [] := by simp
    have hrnlB : ∀ c ∈ intRepr n ++ '-' :: uk, ¬ c = '\n' := by
      intro c hc
      rcases List.mem_append.mp hc with hc1 | hc2
      · rcases (intRepr_facts n).2.1 c hc1 with hd | rfl
        · exact hex_ne_nl (decChar_facts c (mem_of_isDecDigit hd)).2.2.2.2.2.2.2.2
        · decide
      · rcases List.mem_cons.mp hc2 with rfl | hc3
        · decide
        · exact hex_ne_nl (hkhex2 c hc3)
    have htext : URN.toText ⟨ud, .OBJECT, uk, some n, some uk⟩
        = str "urn:rational::1-" ++ (ud ++ '-' :: 'O' :: '-' :: (intRepr n ++ '-' :: uk)) :=
      rfl
    have hm := urnReMatch_eq hdlen2 hdhex2 (Or.inr (Or.inr (Or.inr rfl))) hrneB hrnlB
    rw [htext, urn_from_string_some hm, if_pos rfl]
    have hsplit : splitOnChar '-' (natRepr n.toNat ++ '-' :: uk)
        = [natRepr n.toNat, uk] := by
      rw [splitOnChar_append (fun c hc =>
          (decChar_facts c (mem_of_isDecDigit (hdig c hc))).2.1),
        splitOnChar_no_sep (fun c hc => hex_ne_dash (hkhex2 c hc))]
    rw [hirepr, hsplit]
    show (match pyIntDec (natRepr n.toNat) with
      | none => (Except.error Err.intLiteral : Except Err URN)
      | some n2 => URN.init (pyLower ud) .OBJECT (pyLower uk) (some n2)
          (some (pyLower uk))) = .ok ⟨ud, .OBJECT, uk, some n, some uk⟩
    rw [pyIntDec_natRepr, show ((n.toNat : Nat) : Int) = n from Int.toNat_of_nonneg hn0]
    show URN.init (pyLower ud) .OBJECT (pyLower uk) (some n) (some (pyLower uk))
      = .ok ⟨ud, .OBJECT, uk, some n, some uk⟩
    rw [hdlow2, hklow2,
      urn_init_object hd16m (Int.not_lt.mpr hn0) hk8m (match8_ne_empty hk8m),
      hdlow2, hklow2]

/-- C2 (amended): formatting is a section of parsing on parser outputs: every
value produced by `BaselineKey.from_string`, `GUID.from_string` or
`URN.from_string` re-parses from its own formatted text to the identical
value, so parse-then-format is idempotent on accepted texts.  The claim's
stronger law `format(parse(s)) = s` for every accepted text fails: accepted
texts with uppercase hex reformat in lowercase, and the `urn:telelogic` scheme
variant reformats as `urn:rational`. -/
theorem c2_canonical_roundtrip :
    (∀ (s : Str) (b : BaselineKey), BaselineKey.from_string s = .ok b →
      BaselineKey.from_string (BaselineKey.toText b) = .ok b)
  ∧ (∀ (s : Str) (g : GUID), GUID.from_string s = .ok g →
      GUID.from_string (GUID.toText g) = .ok g)
  ∧ (∀ (s : Str) (u : URN), URN.from_string s = .ok u →
      URN.from_string (URN.toText u) = .ok u) :=
  ⟨fun _ _ h => baseline_reparse h, fun _ _ h => guid_reparse h,
    fun _ _ h => urn_reparse h⟩

/-- C2 counterexample: the parser accepts uppercase hex and the
`urn:telelogic` scheme, but the formatter emits lowercase hex under the
`urn:rational` scheme, so `format(parse(s)) = s` fails on these accepted
texts. -/
theorem c2_counterexample :
    (∃ g, GUID.from_string (str "AB:48BEDA447CFB0C27:21:2100003C20:28FFFFFFFF") = .ok g ∧
      ¬ GUID.toText g = str "AB:48BEDA447CFB0C27:21:2100003C20:28FFFFFFFF")
  ∧ (∃ u, URN.from_string (str "urn:telelogic::1-48beda447cfb0c27-M-00003c20") = .ok u ∧
      ¬ URN.toText u = str "urn:telelogic::1-48beda447cfb0c27-M-00003c20") := by
  refine ⟨⟨⟨str "48beda447cfb0c27", str "21", str "2100003c20", str "28ffffffff", none⟩,
    by decide, by decide⟩,
    ⟨⟨str "48beda447cfb0c27", .MODULE, str "00003c20", none, none⟩,
    by decide, by decide⟩⟩

/-- C2 witness: the canonical internal identifier text round-trips through
parse and format. -/
theorem c2_canonical_roundtrip_witness :
    GUID.from_string (GUID.toText ⟨str "48beda447cfb0c27", str "21", str "2100003c20",
      str "28ffffffff", none⟩) = .ok ⟨str "48beda447cfb0c27", str "21", str "2100003c20",
      str "28ffffffff", none⟩ :=
  c2_canonical_roundtrip.2.1 (str "AB:48beda447cfb0c27:21:2100003c20:28ffffffff")
    ⟨str "48beda447cfb0c27", str "21", str "2100003c20", str "28ffffffff", none⟩
    (by decide)

theorem guidGrammar_widen {s : Str} (h : guidGrammar s = true) :
    guidGrammarRe s = true := by
  unfold guidGrammar at h
  unfold guidGrammarRe
  simp only [Bool.and_eq_true] at h ⊢
  obtain ⟨hpre, hm⟩ := h
  refine ⟨hpre, ?_⟩
  rcases hsplit : splitOnChar ':' s with _ | ⟨a, _ | ⟨d, _ | ⟨t, _ | ⟨p, _ | ⟨o, _ | ⟨bk, _ | ⟨x, xs⟩⟩⟩⟩⟩⟩⟩ <;> rw [hsplit] at hm
  · exact absurd hsplit (splitOnChar_ne_nil ':' s)
  · exact absurd (hm : false = true) (by simp)
  · exact absurd (hm : false = true) (by simp)
  · exact absurd (hm : false = true) (by simp)
  · exact absurd (hm : false = true) (by simp)
  · have hm2 : (hexCore [] 16 d && hexCore [] 2 t &&
        hexCore [] 10 p && hexCore (str "28") 8 o) = true := hm
    show (matchHexAnchored [] 16 d && matchHexAnchored [] 2 t &&
      matchHexAnchored [] 10 p && matchHexAnchored (str "28") 8 o) = true
    simp only [Bool.and_eq_true] at hm2 ⊢
    obtain ⟨⟨⟨h1, h2⟩, h3⟩, h4⟩ := hm2
    exact ⟨⟨⟨matchHex_of_core h1, matchHex_of_core h2⟩, matchHex_of_core h3⟩,
      matchHex_of_core h4⟩
  · have hm2 : ((BaselineKey.from_string bk).isOk && hexCore [] 16 d && hexCore [] 2 t &&
        hexCore [] 10 p && hexCore (str "28") 8 o) = true := hm
    show ((BaselineKey.from_string bk).isOk && matchHexAnchored [] 16 d &&
      matchHexAnchored [] 2 t && matchHexAnchored [] 10 p &&
      matchHexAnchored (str "28") 8 o) = true
    simp only [Bool.and_eq_true] at hm2 ⊢
    obtain ⟨⟨⟨⟨hb, h1⟩, h2⟩, h3⟩, h4⟩ := hm2
    exact ⟨⟨⟨⟨hb, matchHex_of_core h1⟩, matchHex_of_core h2⟩, matchHex_of_core h3⟩,
      matchHex_of_core h4⟩
  · exact absurd (hm : false = true) (by simp)

theorem from_string_isOk_eq {s : Str} :
    (GUID.from_string s).isOk = guidGrammarRe s := by

  cases hpre : (str "AB:").isPrefixOf s with
  | false =>
    rw [from_string_pre_no hpre]
    unfold guidGrammarRe
    rw [hpre]
    rfl
  | true =>
    rcases hsplit : splitOnChar ':' s with _ | ⟨a, _ | ⟨d, _ | ⟨t, _ | ⟨p, _ | ⟨o, _ | ⟨bk, _ | ⟨x, xs⟩⟩⟩⟩⟩⟩⟩
    · exact absurd hsplit (splitOnChar_ne_nil ':' s)
    · have h1 : GUID.from_string s = .error .invalidGuidFormat := by
        unfold GUID.from_string
        rw [if_pos hpre, hsplit]
      rw [h1]
      unfold guidGrammarRe
      rw [hpre, hsplit]
      rfl
    · have h1 : GUID.from_string s = .error .invalidGuidFormat := by
        unfold GUID.from_string
        rw [if_pos hpre, hsplit]
      rw [h1]
      unfold guidGrammarRe
      rw [hpre, hsplit]
      rfl
    · have h1 : GUID.from_string s = .error .invalidGuidFormat := by
        unfold GUID.from_string
        rw [if_pos hpre, hsplit]
      rw [h1]
      unfold guidGrammarRe
      rw [hpre, hsplit]
      rfl
    · have h1 : GUID.from_string s = .error .invalidGuidFormat := by
        unfold GUID.from_string
        rw [if_pos hpre, hsplit]
      rw [h1]
      unfold guidGrammarRe
      rw [hpre, hsplit]
      rfl
    · rw [from_string_eq5 hpre hsplit, init_isOk]
      unfold guidGrammarRe
      rw [hpre, hsplit]
      simp
    · cases hbk : BaselineKey.from_string bk with
      | error e =>
        rw [from_string_eq6_err hpre hsplit hbk]
        unfold guidGrammarRe
        rw [hpre, hsplit]
        simp only [hbk]
        rfl
      | ok b =>
        rw [from_string_eq6_ok hpre hsplit hbk, init_isOk]
        unfold guidGrammarRe
        rw [hpre, hsplit]
        simp only [hbk]
        simp [Except.isOk, Except.toBool]
    · have h1 : GUID.from_string s = .error .invalidGuidFormat := by
        unfold GUID.from_string
        rw [if_pos hpre, hsplit]
      rw [h1]
      unfold guidGrammarRe
      rw [hpre, hsplit]
      rfl

/-- C6 (amended): `GUID.from_string` accepts exactly the texts that start with
the literal `AB:` and split on `:` into 4 or 5 further components, the 5th
(when present) being baseline-key text accepted by the baseline codec, and
each of the 4 positional components matching its fixed-width hex pattern
widened by the anchored patterns' CPython quirk of also admitting one trailing
newline (`guidGrammarRe`); every text of the claim's exact fixed-width grammar
(`guidGrammar`) is accepted, but the acceptance is strictly wider, so the
claim's `accepts exactly` fails.  Any pattern failure raises the format error
naming the offending field, and on success all hex fields are stored
lower-cased (case-insensitive input is accepted by the patterns). -/
theorem c6_from_string_characterization (s : Str) :
    ((GUID.from_string s).isOk = guidGrammarRe s)
  ∧ (guidGrammar s = true → (GUID.from_string s).isOk = true)
  ∧ (∀ g, GUID.from_string s = .ok g →
      pyLower g.dbid = g.dbid ∧ pyLower g.typecode = g.typecode ∧
      pyLower g.parent_key = g.parent_key ∧ pyLower g.object_key = g.object_key)
  ∧ (∀ a d t p o rest, splitOnChar ':' s = a :: d :: t :: p :: o :: rest →
      (str "AB:").isPrefixOf s = true →
      (rest = [] ∨ ∃ bk b, rest = [bk] ∧ BaselineKey.from_string bk = .ok b) →
        ((matchHexAnchored [] 16 d = false →
          GUID.from_string s = .error .invalidDatabaseId)
        ∧ (matchHexAnchored [] 16 d = true → matchHexAnchored [] 2 t = false →
          GUID.from_string s = .error .invalidTypeCode)
        ∧ (matchHexAnchored [] 16 d = true → matchHexAnchored [] 2 t = true →
          matchHexAnchored [] 10 p = false →
          GUID.from_string s = .error .invalidModuleSegment)
        ∧ (matchHexAnchored [] 16 d = true → matchHexAnchored [] 2 t = true →
          matchHexAnchored [] 10 p = true → matchHexAnchored (str "28") 8 o = false →
          GUID.from_string s = .error .invalidObjectSegment))) := by
  refine ⟨from_string_isOk_eq, ?_, ?_, ?_⟩
  · intro hg
    rw [from_string_isOk_eq]
    exact guidGrammar_widen hg
  · intro g hg
    cases hpre : (str "AB:").isPrefixOf s with
    | false =>
      rw [from_string_pre_no hpre] at hg
      exact absurd hg (by simp)
    | true =>
      rcases hsplit : splitOnChar ':' s with _ | ⟨a, _ | ⟨d, _ | ⟨t, _ | ⟨p, _ | ⟨o, _ | ⟨bk, _ | ⟨x, xs⟩⟩⟩⟩⟩⟩⟩
      · exact absurd hsplit (splitOnChar_ne_nil ':' s)
      all_goals try
        (exfalso
         have h1 : GUID.from_string s = .error .invalidGuidFormat := by
           unfold GUID.from_string
           rw [if_pos hpre, hsplit]
         rw [h1] at hg
         exact absurd hg (by simp))
      · rw [from_string_eq5 hpre hsplit] at hg
        obtain ⟨h1, h2, h3, h4, rfl⟩ := init_ok_iff.mp hg
        exact ⟨(matchHexAnchored_lower rfl h1).2, (matchHexAnchored_lower rfl h2).2,
          (matchHexAnchored_lower rfl h3).2,
          (matchHexAnchored_lower (by decide) h4).2⟩
      · cases hbk : BaselineKey.from_string bk with
        | error e =>
          rw [from_string_eq6_err hpre hsplit hbk] at hg
          exact absurd hg (by simp)
        | ok b =>
          rw [from_string_eq6_ok hpre hsplit hbk] at hg
          obtain ⟨h1, h2, h3, h4, rfl⟩ := init_ok_iff.mp hg
          exact ⟨(matchHexAnchored_lower rfl h1).2, (matchHexAnchored_lower rfl h2).2,
            (matchHexAnchored_lower rfl h3).2,
            (matchHexAnchored_lower (by decide) h4).2⟩
  · intro a d t p o rest hsplit hpre hrest
    rcases hrest with rfl | ⟨bk, b, rfl, hbk⟩
    · refine ⟨?_, ?_, ?_, ?_⟩
      · intro hd
        rw [from_string_eq5 hpre hsplit]
        exact init_err_dbid hd
      · intro h1 hd
        rw [from_string_eq5 hpre hsplit]
        exact init_err_tc h1 hd
      · intro h1 h2 hd
        rw [from_string_eq5 hpre hsplit]
        exact init_err_pk h1 h2 hd
      · intro h1 h2 h3 hd
        rw [from_string_eq5 hpre hsplit]
        exact init_err_ok h1 h2 h3 hd
    · refine ⟨?_, ?_, ?_, ?_⟩
      · intro hd
        rw [from_string_eq6_ok hpre hsplit hbk]
        exact init_err_dbid hd
      · intro h1 hd
        rw [from_string_eq6_ok hpre hsplit hbk]
        exact init_err_tc h1 hd
      · intro h1 h2 hd
        rw [from_string_eq6_ok hpre hsplit hbk]
        exact init_err_pk h1 h2 hd
      · intro h1 h2 h3 hd
        rw [from_string_eq6_ok hpre hsplit hbk]
        exact init_err_ok h1 h2 h3 hd

/-- C6 counterexample: the text `AB:48beda447cfb0c27:21:2100003c20:28ffffffff`
with one trailing newline is accepted by `GUID.from_string` (the anchored
patterns' `$` matches before the newline), yet its object-key component is not
an exact fixed-width hex run, so the text lies outside the claim's grammar. -/
theorem c6_counterexample :
    (GUID.from_string (str "AB:48beda447cfb0c27:21:2100003c20:28ffffffff\n")).isOk = true
  ∧ guidGrammar (str "AB:48beda447cfb0c27:21:2100003c20:28ffffffff\n") = false := by
  refine ⟨by decide, by decide⟩

/-- C6 witness: case-insensitive exact-grammar input is accepted and stored
lower-cased. -/
theorem c6_from_string_characterization_witness :
    (GUID.from_string (str "AB:48BEDA447CFB0C27:21:2100003c20:28ffffffff")).isOk = true
    ∧ pyLower (⟨str "48beda447cfb0c27", str "21", str "2100003c20", str "28ffffffff",
        none⟩ : GUID).dbid
      = (⟨str "48beda447cfb0c27", str "21", str "2100003c20", str "28ffffffff",
        none⟩ : GUID).dbid := by
  refine ⟨(c6_from_string_characterization
    (str "AB:48BEDA447CFB0C27:21:2100003c20:28ffffffff")).2.1 (by decide), ?_⟩
  exact ((c6_from_string_characterization
      (str "AB:48BEDA447CFB0C27:21:2100003c20:28ffffffff")).2.2.1
    ⟨str "48beda447cfb0c27", str "21", str "2100003c20", str "28ffffffff", none⟩
    (by decide)).1
end Dwa
